import Mathlib

/-!
Shallow embedding of `elektronn3/data/transformations.py` in Lean 4.

Modelling conventions:
* `floatX` (the working float precision) is modelled by `ℚ`; the always-applied
  float casts are the identity in this model, and float rounding is not modelled.
* numpy's `np.int32(x)` cast of a float truncates toward zero (`truncQ`);
  `np.round` rounds half to even (`npRound`); `np.floor`/`np.ceil` are `⌊·⌋`/`⌈·⌉`.
* A random source (`np.random.RandomState` or the global `np.random` state) is
  modelled as a stream of unit draws `ℕ → ℚ` plus a cursor (`Rng`); each numpy
  sampling primitive consumes draws from it in call order.  `uniform(lo, hi)`
  is modelled as `lo + (hi - lo)·u`, `binomial(1, 0.5)` as a threshold on a unit
  draw, and `randint(lo, hi)` as `⌊lo⌋ + ⌊u·(⌊hi⌋ - ⌊lo⌋)⌋`.
* Transcendental functions (`sin`, `cos`, `arctan2`, `arccos`, `arcsin`,
  `sqrt`, `pi`) are abstracted into a `TrigOps` record: every theorem about code
  composing rotation matrices is proved for an arbitrary interpretation of these
  operations, which is what the claims (all structural) require.
* Volumes (h5py datasets / numpy arrays of shape `(C, D, H, W)`) are total
  functions from indices; reads outside the declared shape are unconstrained
  junk and are never exercised by the theorems.  numpy's negative-index
  wraparound is not modelled (clamp via `Int.toNat`): no theorem below touches
  a negative index.
-/

namespace E3

/-- A 4x4 homogeneous transformation matrix over the working precision. -/
abbrev Mat4 := Fin 4 → Fin 4 → ℚ

/-- Builds a 4x4 matrix from its 16 entries in row-major order (the layout of
the numpy array literals in the source). -/
def mk4 (a00 a01 a02 a03 a10 a11 a12 a13 a20 a21 a22 a23 a30 a31 a32 a33 : ℚ) :
    Mat4 := fun i j =>
  if i = 0 then
    if j = 0 then a00 else if j = 1 then a01 else if j = 2 then a02 else a03
  else if i = 1 then
    if j = 0 then a10 else if j = 1 then a11 else if j = 2 then a12 else a13
  else if i = 2 then
    if j = 0 then a20 else if j = 1 then a21 else if j = 2 then a22 else a23
  else
    if j = 0 then a30 else if j = 1 then a31 else if j = 2 then a32 else a33

/-- The 4x4 identity, `np.eye(4)` / `identity()`. -/
def idMat4 : Mat4 :=
  mk4 1 0 0 0
      0 1 0 0
      0 0 1 0
      0 0 0 1

/-- Matrix product `np.dot` on 4x4 matrices, written as explicit 4-term sums. -/
def matMul (A B : Mat4) : Mat4 := fun i j =>
  A i 0 * B 0 j + A i 1 * B 1 j + A i 2 * B 2 j + A i 3 * B 3 j

/-- `chain_matrices(mat_list) = reduce(np.dot, mat_list, identity())`. -/
def chain_matrices (l : List Mat4) : Mat4 := l.foldl matMul idMat4

/-- Determinant of a 3x3 matrix given as a function, by cofactor expansion. -/
def det3f (B : Fin 3 → Fin 3 → ℚ) : ℚ :=
  B 0 0 * (B 1 1 * B 2 2 - B 1 2 * B 2 1)
  - B 0 1 * (B 1 0 * B 2 2 - B 1 2 * B 2 0)
  + B 0 2 * (B 1 0 * B 2 1 - B 1 1 * B 2 0)

/-- Index map that skips row/column `r` of a 4x4 matrix. -/
def skip4 (r : Fin 4) (i : Fin 3) : Fin 4 :=
  if (i : ℕ) < (r : ℕ) then ⟨i, by omega⟩ else ⟨(i : ℕ) + 1, by omega⟩

/-- 3x3 minor of `A` obtained by deleting row `r` and column `c`. -/
def minor4 (A : Mat4) (r c : Fin 4) : ℚ :=
  det3f fun i j => A (skip4 r i) (skip4 c j)

/-- Determinant of a 4x4 matrix, expansion along the first row. -/
def det4 (A : Mat4) : ℚ :=
  A 0 0 * minor4 A 0 0 - A 0 1 * minor4 A 0 1
  + A 0 2 * minor4 A 0 2 - A 0 3 * minor4 A 0 3

/-- Adjugate of a 4x4 matrix: entry `(i, j)` is the `(j, i)` cofactor, with the
checkerboard signs written out. -/
def adj4 (A : Mat4) : Mat4 :=
  mk4 (minor4 A 0 0)    (-(minor4 A 1 0)) (minor4 A 2 0)    (-(minor4 A 3 0))
      (-(minor4 A 0 1)) (minor4 A 1 1)    (-(minor4 A 2 1)) (minor4 A 3 1)
      (minor4 A 0 2)    (-(minor4 A 1 2)) (minor4 A 2 2)    (-(minor4 A 3 2))
      (-(minor4 A 0 3)) (minor4 A 1 3)    (-(minor4 A 2 3)) (minor4 A 3 3)

/-- Exact 4x4 matrix inverse via the adjugate; models `np.linalg.inv` (which the
source evaluates in float64 and casts back to the working precision). -/
def inv4 (A : Mat4) : Mat4 := fun i j => adj4 A i j / det4 A

/-- `translate(dz, dy, dx)`. -/
def translate (dz dy dx : ℚ) : Mat4 :=
  mk4 1 0 0 dz
      0 1 0 dy
      0 0 1 dx
      0 0 0 1

/-- `scale(mz, my, mx)`. -/
def scale (mz my mx : ℚ) : Mat4 :=
  mk4 mz 0  0  0
      0  my 0  0
      0  0  mx 0
      0  0  0  1

/-- `scale_inv(mz, my, mx)`: diagonal of reciprocals. -/
def scale_inv (mz my mx : ℚ) : Mat4 :=
  mk4 (1/mz) 0      0      0
      0      (1/my) 0      0
      0      0      (1/mx) 0
      0      0      0      1

/-- Abstract interpretation of the transcendental functions used by the
rotation builders and samplers. -/
structure TrigOps where
  sin : ℚ → ℚ
  cos : ℚ → ℚ
  arctan2 : ℚ → ℚ → ℚ
  arccos : ℚ → ℚ
  arcsin : ℚ → ℚ
  sqrt : ℚ → ℚ
  pi : ℚ

/-- `rotate_z(a)`. -/
def rotate_z (ops : TrigOps) (a : ℚ) : Mat4 :=
  mk4 1 0           0            0
      0 (ops.cos a) (-ops.sin a) 0
      0 (ops.sin a) (ops.cos a)  0
      0 0           0            1

/-- `rotate_y(a)`. -/
def rotate_y (ops : TrigOps) (a : ℚ) : Mat4 :=
  mk4 (ops.cos a) (-ops.sin a) 0 0
      (ops.sin a) (ops.cos a)  0 0
      0           0            1 0
      0           0            0 1

/-- `rotate_x(a)`. -/
def rotate_x (ops : TrigOps) (a : ℚ) : Mat4 :=
  mk4 (ops.cos a)  0 (ops.sin a) 0
      0            1 0           0
      (-ops.sin a) 0 (ops.cos a) 0
      0            0 0           1

/-! ### Random sources and the sampler functions -/

/-- A random source: an abstract stream of unit draws plus a cursor.  Models
both `np.random.RandomState` objects and the global `np.random` state. -/
structure Rng where
  stream : ℕ → ℚ
  pos : ℕ

/-- Consume one unit draw. -/
def Rng.next (r : Rng) : ℚ × Rng := (r.stream r.pos, ⟨r.stream, r.pos + 1⟩)

/-- `rng.randint(lo, hi)` on (possibly float) bounds: numpy truncates the
bounds to integers and draws uniformly in `[lo, hi)`; modelled as
`⌊lo⌋ + ⌊u·(⌊hi⌋ - ⌊lo⌋)⌋` for a unit draw `u`. -/
def randintQ (lo hi : ℚ) (r : Rng) : ℤ × Rng :=
  let u := (r.next).1
  (⌊lo⌋ + ⌊u * ((⌊hi⌋ : ℚ) - (⌊lo⌋ : ℚ))⌋, (r.next).2)

/-- The error conditions `warp_slice` and its helpers can signal:
`WarpingOOBError` (a `ValueError` subclass raised for out-of-bounds boxes),
a plain `ValueError` (invalid configuration), and a failed `assert`. -/
inductive WErr where
  | oob
  | valueError
  | assertError
deriving DecidableEq

/-- The `gamma` argument of `get_rotmat_from_direc`: `None`, the string
sentinel `'rand'`, or a fixed angle. -/
inductive GammaArg where
  | noneArg
  | rand
  | val (g : ℚ)

/-- `get_euler_angles(direc, gamma)`: asserts the direction is unit-norm
within `1e-3` and returns `(phi, theta, gamma)`. -/
def get_euler_angles (ops : TrigOps) (direc : ℚ × ℚ × ℚ) (gamma : ℚ) :
    Except WErr (ℚ × ℚ × ℚ) :=
  if |ops.sqrt (direc.1 * direc.1 + direc.2.1 * direc.2.1 + direc.2.2 * direc.2.2) - 1|
      < 1/1000 then
    .ok (ops.arctan2 direc.2.2 direc.2.1, ops.arccos direc.1, gamma)
  else
    .error .assertError

/-- `get_rotmat_from_direc(direc, gamma, rng)`. -/
def get_rotmat_from_direc (ops : TrigOps) (direc : ℚ × ℚ × ℚ) (gamma : GammaArg)
    (rng : Rng) : Except WErr Mat4 :=
  let g : ℚ :=
    match gamma with
    | .noneArg => 0
    | .rand => (rng.next).1 * 2 * ops.pi
    | .val g => g
  match get_euler_angles ops direc g with
  | .error e => .error e
  | .ok (phi, theta, g') =>
      .ok (chain_matrices [rotate_z ops g', rotate_y ops (-theta), rotate_z ops (-phi)])

/-- `get_random_rotmat(lock_z, amount, rng)`. -/
def get_random_rotmat (ops : TrigOps) (lock_z : Bool) (amount : ℚ) (rng : Rng) :
    Mat4 × Rng :=
  let d1 := rng.next
  let gamma := d1.1 * 2 * ops.pi * amount
  if lock_z then (rotate_z ops gamma, d1.2)
  else
    let d2 := d1.2.next
    let phi := d2.1 * 2 * ops.pi * amount
    let d3 := d2.2.next
    let theta := ops.arcsin d3.1 * amount
    (chain_matrices [rotate_z ops gamma, rotate_y ops (-theta), rotate_z ops (-phi)], d3.2)

/-- `get_random_flipmat(no_x_flip, rng)`: the diagonal holds `±1` from four
fair coin flips (`rng.binomial(1, 0.5, 4) * 2 - 1`, one unit draw per entry,
thresholded at 1/2); the homogeneous entry, and the x entry under
`no_x_flip`, are forced to `+1`. -/
def get_random_flipmat (no_x_flip : Bool) (rng : Rng) : Mat4 × Rng :=
  let b : Fin 4 → ℚ := fun i => if rng.stream (rng.pos + (i : ℕ)) < 1/2 then -1 else 1
  let f : Fin 4 → ℚ := fun i =>
    if i = 3 then 1 else if no_x_flip = true ∧ i = 2 then 1 else b i
  (fun i j => if i = j then f i else 0, ⟨rng.stream, rng.pos + 4⟩)

/-- The permutation table of `get_random_swapmat` (all permutations of the
three spatial axes, or only those fixing axis 0 under `lock_z`). -/
def swapTable (lock_z : Bool) : List (List ℕ) :=
  if lock_z then
    [[0, 1, 2, 3],
     [0, 2, 1, 3]]
  else
    [[0, 1, 2, 3],
     [0, 2, 1, 3],
     [1, 0, 2, 3],
     [1, 2, 0, 3],
     [2, 0, 1, 3],
     [2, 1, 0, 3]]

/-- `get_random_swapmat(lock_z, rng)`: row `r` of the result is row `p r` of
the identity, for a uniformly chosen permutation `p` of the table. -/
def get_random_swapmat (lock_z : Bool) (rng : Rng) : Mat4 × Rng :=
  let swaps := swapTable lock_z
  let d := rng.next
  let i := (⌊d.1 * swaps.length⌋).toNat
  let p := (swaps.get? i).getD [0, 1, 2, 3]
  (fun r c => if (p.get? (r : ℕ)).getD (r : ℕ) = (c : ℕ) then 1 else 0, d.2)

/-- `np.clip(x, lo, hi)`. -/
def npClip (x lo hi : ℚ) : ℚ := min (max x lo) hi

/-- `get_random_warpmat(lock_z, perspective, amount, rng)`.  NOTE the actual
argument use in the source: the perturbation is drawn with
`np.random.uniform(-amount, amount, (4, 4))` from the GLOBAL numpy state
(modelled by `globalRng`, 16 draws in row-major order); the `rng` parameter
is accepted but never read. -/
def get_random_warpmat (lock_z perspective : Bool) (amount : ℚ)
    (globalRng : Rng) (rng : Rng) : Mat4 :=
  let a := amount * (1/10)
  let raw : Mat4 := fun i j =>
    -a + 2 * a * globalRng.stream (globalRng.pos + (4 * (i : ℕ) + (j : ℕ)))
  let p1 : Mat4 := fun i j => if i = 3 ∧ j = 3 then 0 else raw i j
  let p2 : Mat4 := fun i j =>
    if lock_z = true ∧ (i = 0 ∨ j = 0) then 0 else p1 i j
  let p3 : Mat4 := fun i j =>
    if perspective = false ∧ i = 3 then 0 else p2 i j
  let p4 : Mat4 := fun i j =>
    if i = 3 ∧ ¬j = 3 then npClip (p3 i j * (1/20)) (-(3/1000)) (3/1000) else p3 i j
  fun i j => idMat4 i j + p4 i j

/-! ### Volumes, interpolation kernels and `warp_slice` -/

/-- A channel-first volume of shape `(nf, sh0, sh1, sh2)`; `data` is total,
reads outside the shape are unconstrained junk. -/
structure Vol where
  nf : ℕ
  sh0 : ℕ
  sh1 : ℕ
  sh2 : ℕ
  data : ℕ → ℕ → ℕ → ℕ → ℚ

/-- Output arrays, indexed `(channel, z, x, y)`. -/
abbrev OutArr := ℕ → ℕ → ℕ → ℕ → ℚ

/-- `np.int32(x)`: truncation toward zero. -/
def truncQ (q : ℚ) : ℤ := if q < 0 then -⌊-q⌋ else ⌊q⌋

/-- `np.int32(np.round(x))`: round half to even. -/
def npRound (q : ℚ) : ℤ :=
  let f := ⌊q⌋
  let r := q - (f : ℚ)
  if r < 1/2 then f else if 1/2 < r then f + 1 else if f % 2 = 0 then f else f + 1

/-- Minimum of a list of rationals (`np.min`); junk 0 on the empty list, which
the source never hits. -/
def qminL : List ℚ → ℚ
  | [] => 0
  | x :: xs => xs.foldl min x

/-- Maximum of a list of rationals (`np.max`); junk 0 on the empty list. -/
def qmaxL : List ℚ → ℚ
  | [] => 0
  | x :: xs => xs.foldl max x

/-- Minimum of a list of integers; junk 0 on the empty list. -/
def zminL : List ℤ → ℤ
  | [] => 0
  | x :: xs => xs.foldl min x

/-- Maximum of a list of integers; junk 0 on the empty list. -/
def zmaxL : List ℤ → ℤ
  | [] => 0
  | x :: xs => xs.foldl max x

/-- `np.any(M[3,:3] != 0)`: the exact (not tolerance-based) projectivity test
used to decide whether to apply the homogeneous divide. -/
def isProj (M : Mat4) : Bool :=
  decide (¬M 3 0 = 0) || decide (¬M 3 1 = 0) || decide (¬M 3 2 = 0)

/-- `np.allclose(M[3,:3], 0.0)`: tolerance-based affinity test used by the
vector re-projection `assert` (atol = 1e-8, rtol-term vanishes against 0). -/
def allClose3Zero (M : Mat4) : Bool :=
  decide (|M 3 0| ≤ 1/100000000) && decide (|M 3 1| ≤ 1/100000000)
    && decide (|M 3 2| ≤ 1/100000000)

/-- Apply the inverse matrix to a homogeneous destination point `(z, x, y, 1)`
and divide by the fourth component if the transform is projective.  This is
the per-point content of `np.dot(M_inv, dest.T)` / `np.tensordot`. -/
def invMapPoint (Minv : Mat4) (proj : Bool) (z x y : ℚ) : ℚ × ℚ × ℚ :=
  let a := Minv 0 0 * z + Minv 0 1 * x + Minv 0 2 * y + Minv 0 3
  let b := Minv 1 0 * z + Minv 1 1 * x + Minv 1 2 * y + Minv 1 3
  let c := Minv 2 0 * z + Minv 2 1 * x + Minv 2 2 * y + Minv 2 3
  let d := Minv 3 0 * z + Minv 3 1 * x + Minv 3 2 * y + Minv 3 3
  if proj then (a / d, b / d, c / d) else (a, b, c)

/-- `make_dest_corners(sh)`: the 8 products of `{0, sh_i - 1}` per axis, in
`itertools.product` order (last axis fastest). -/
def make_dest_corners (ps : ℕ × ℕ × ℕ) : List (ℚ × ℚ × ℚ) :=
  let c0 : ℚ := (ps.1 : ℚ) - 1
  let c1 : ℚ := (ps.2.1 : ℚ) - 1
  let c2 : ℚ := (ps.2.2 : ℚ) - 1
  [(0, 0, 0), (0, 0, c2), (0, c1, 0), (0, c1, c2),
   (c0, 0, 0), (c0, 0, c2), (c0, c1, 0), (c0, c1, c2)]

/-- The 8 destination corners mapped into source space through `M_inv`. -/
def srcCornersQ (ps : ℕ × ℕ × ℕ) (Minv : Mat4) (proj : Bool) : List (ℚ × ℚ × ℚ) :=
  (make_dest_corners ps).map fun c => invMapPoint Minv proj c.1 c.2.1 c.2.2

/-- `lo = np.min(np.floor(src_corners), 0)`. -/
def warpLo (corners : List (ℚ × ℚ × ℚ)) : ℤ × ℤ × ℤ :=
  (zminL (corners.map fun c => ⌊c.1⌋),
   zminL (corners.map fun c => ⌊c.2.1⌋),
   zminL (corners.map fun c => ⌊c.2.2⌋))

/-- `hi = np.max(np.ceil(src_corners + 1), 0)` (the `+ 1` reserves the linear
interpolation neighbor). -/
def warpHi (corners : List (ℚ × ℚ × ℚ)) : ℤ × ℤ × ℤ :=
  (zmaxL (corners.map fun c => ⌈c.1 + 1⌉),
   zmaxL (corners.map fun c => ⌈c.2.1 + 1⌉),
   zmaxL (corners.map fun c => ⌈c.2.2 + 1⌉))

/-- The primary out-of-bounds test of `warp_slice`:
`np.any(lo < 0) or np.any(hi >= sh)`. -/
def warpOOB (inp : Vol) (ps : ℕ × ℕ × ℕ) (M : Mat4) : Bool :=
  let corners := srcCornersQ ps (inv4 M) (isProj M)
  let lo := warpLo corners
  let hi := warpHi corners
  decide (lo.1 < 0) || decide (lo.2.1 < 0) || decide (lo.2.2 < 0)
    || decide ((inp.sh0 : ℤ) ≤ hi.1) || decide ((inp.sh1 : ℤ) ≤ hi.2.1)
    || decide ((inp.sh2 : ℤ) ≤ hi.2.2)

/-- `map_coordinates_nearest`: round the box-local coordinate and look up. -/
def mapNearest (src : ℤ → ℤ → ℤ → ℚ) (coord lo : ℚ × ℚ × ℚ) : ℚ :=
  src (npRound (coord.1 - lo.1)) (npRound (coord.2.1 - lo.2.1))
    (npRound (coord.2.2 - lo.2.2))

/-- `map_coordinates_linear`: trilinear interpolation from the 8 surrounding
voxels of the box-local coordinate. -/
def mapLinear (src : ℤ → ℤ → ℤ → ℚ) (coord lo : ℚ × ℚ × ℚ) : ℚ :=
  let u := coord.1 - lo.1
  let v := coord.2.1 - lo.2.1
  let w := coord.2.2 - lo.2.2
  let u0 := truncQ u
  let u1 := u0 + 1
  let du := u - (u0 : ℚ)
  let v0 := truncQ v
  let v1 := v0 + 1
  let dv := v - (v0 : ℚ)
  let w0 := truncQ w
  let w1 := w0 + 1
  let dw := w - (w0 : ℚ)
  src u0 v0 w0 * (1 - du) * (1 - dv) * (1 - dw) +
  src u1 v0 w0 * du * (1 - dv) * (1 - dw) +
  src u0 v1 w0 * (1 - du) * dv * (1 - dw) +
  src u0 v0 w1 * (1 - du) * (1 - dv) * dw +
  src u1 v0 w1 * du * (1 - dv) * dw +
  src u0 v1 w1 * (1 - du) * dv * dw +
  src u1 v1 w0 * du * dv * (1 - dw) +
  src u1 v1 w1 * du * dv * dw

/-- `map_coordinates_max_kernel`: maximum over an anisotropic neighborhood
(half-width `min(1/2, k/2)` on axis 0 and `k` on axes 1/2) clamped to the
sub-array bounds.  numpy raises on an empty slice; the model returns junk 0
there (never exercised by the theorems). -/
def mapMaxKernel (src : ℤ → ℤ → ℤ → ℚ) (shSrc : ℕ × ℕ × ℕ) (coord lo : ℚ × ℚ × ℚ)
    (k : ℚ) : ℚ :=
  let kz := min (1/2) (k/2)
  let u := coord.1 - lo.1
  let v := coord.2.1 - lo.2.1
  let w := coord.2.2 - lo.2.2
  let u0 := npRound (max 0 (min (shSrc.1 : ℚ) (u - kz)))
  let u1 := npRound (max 0 (min (shSrc.1 : ℚ) (u + kz)))
  let v0 := npRound (max 0 (min (shSrc.2.1 : ℚ) (v - k)))
  let v1 := npRound (max 0 (min (shSrc.2.1 : ℚ) (v + k)))
  let w0 := npRound (max 0 (min (shSrc.2.2 : ℚ) (w - k)))
  let w1 := npRound (max 0 (min (shSrc.2.2 : ℚ) (w + k)))
  qmaxL (((List.range (u1 - u0).toNat).flatMap fun i =>
    (List.range (v1 - v0).toNat).flatMap fun j =>
      (List.range (w1 - w0).toNat).map fun l =>
        src (u0 + (i : ℤ)) (v0 + (j : ℤ)) (w0 + (l : ℤ))))

/-- Channel `c` of the bounded sub-array cut at `lo` out of volume `v`
(`v[:, lo0:hi0+1, lo1:hi1+1, lo2:hi2+1]`), as a box-local index function. -/
def cutAt (v : Vol) (lo : ℤ × ℤ × ℤ) (c : ℕ) : ℤ → ℤ → ℤ → ℚ :=
  fun i j l => v.data c (lo.1 + i).toNat (lo.2.1 + j).toNat (lo.2.2 + l).toNat

/-- The dense source-space coordinate of destination voxel `(z, x, y)`
(`make_dest_coords` composed with `M_inv` and the optional divide). -/
def srcCoordAt (Minv : Mat4) (proj : Bool) (z x y : ℕ) : ℚ × ℚ × ℚ :=
  invMapPoint Minv proj (z : ℚ) (x : ℚ) (y : ℚ)

/-- The warped primary output of `warp_slice`: every channel is trilinear,
except that the final channel uses the max-kernel when `ksize > 0.5` and
`last_ch_max_interp` is set. -/
def primaryOut (inp : Vol) (ps : ℕ × ℕ × ℕ) (M : Mat4) (lcmi : Bool) (ksize : ℚ) :
    OutArr := fun c z x y =>
  let Minv := inv4 M
  let proj := isProj M
  let corners := srcCornersQ ps Minv proj
  let lo := warpLo corners
  let hi := warpHi corners
  let cut := cutAt inp lo c
  let coord := srcCoordAt Minv proj z x y
  let loQ : ℚ × ℚ × ℚ := ((lo.1 : ℚ), (lo.2.1 : ℚ), (lo.2.2 : ℚ))
  if 1/2 < ksize ∧ lcmi = true ∧ c = inp.nf - 1 then
    mapMaxKernel cut
      ((hi.1 + 1 - lo.1).toNat, (hi.2.1 + 1 - lo.2.1).toNat, (hi.2.2 + 1 - lo.2.2).toNat)
      coord loQ ksize
  else
    mapLinear cut coord loQ

/-- `np.any(np.mod(np.subtract(sh, target_src.shape[1:]), 2))` negated: the
full-extent centering parity check. -/
def offParityOK (inp tv : Vol) : Bool :=
  decide (((inp.sh0 : ℤ) - (tv.sh0 : ℤ)) % 2 = 0)
    && decide (((inp.sh1 : ℤ) - (tv.sh1 : ℤ)) % 2 = 0)
    && decide (((inp.sh2 : ℤ) - (tv.sh2 : ℤ)) % 2 = 0)

/-- The patch-size centering parity check on `ps - target_ps`. -/
def psParityOK (ps tps : ℕ × ℕ × ℕ) : Bool :=
  decide (((ps.1 : ℤ) - (tps.1 : ℤ)) % 2 = 0)
    && decide (((ps.2.1 : ℤ) - (tps.2.1 : ℤ)) % 2 = 0)
    && decide (((ps.2.2 : ℤ) - (tps.2.2 : ℤ)) % 2 = 0)

/-- `off = (sh - target_src.shape[1:]) // 2` (numpy floor division). -/
def centerOff (inp tv : Vol) : ℤ × ℤ × ℤ :=
  (Int.ediv ((inp.sh0 : ℤ) - (tv.sh0 : ℤ)) 2,
   Int.ediv ((inp.sh1 : ℤ) - (tv.sh1 : ℤ)) 2,
   Int.ediv ((inp.sh2 : ℤ) - (tv.sh2 : ℤ)) 2)

/-- `off_ps = (ps - target_ps) // 2`. -/
def psOff (ps tps : ℕ × ℕ × ℕ) : ℤ × ℤ × ℤ :=
  (Int.ediv ((ps.1 : ℤ) - (tps.1 : ℤ)) 2,
   Int.ediv ((ps.2.1 : ℤ) - (tps.2.1 : ℤ)) 2,
   Int.ediv ((ps.2.2 : ℤ) - (tps.2.2 : ℤ)) 2)

/-- `src_coords_target[z, x, y] = src_coords[off_ps + (z, x, y)]`: the dense
coordinate sub-grid for the target patch. -/
def targetCoordAt (M : Mat4) (ps tps : ℕ × ℕ × ℕ) (z x y : ℕ) : ℚ × ℚ × ℚ :=
  let o := psOff ps tps
  invMapPoint (inv4 M) (isProj M)
    ((o.1 + (z : ℤ) : ℤ) : ℚ) ((o.2.1 + (x : ℤ) : ℤ) : ℚ) ((o.2.2 + (y : ℤ) : ℤ) : ℚ)

/-- All dense target-patch coordinates, flattened (axis order `z, x, y`). -/
def targetCoordList (M : Mat4) (ps tps : ℕ × ℕ × ℕ) : List (ℚ × ℚ × ℚ) :=
  (List.range tps.1).flatMap fun z =>
    (List.range tps.2.1).flatMap fun x =>
      (List.range tps.2.2).map fun y => targetCoordAt M ps tps z x y

/-- `lo_targ = np.floor(src_coords_target.min((2,1,0)) - off)`. -/
def targLo (inp tv : Vol) (ps tps : ℕ × ℕ × ℕ) (M : Mat4) : ℤ × ℤ × ℤ :=
  let o := centerOff inp tv
  let l := targetCoordList M ps tps
  (⌊qminL (l.map fun c => c.1) - (o.1 : ℚ)⌋,
   ⌊qminL (l.map fun c => c.2.1) - (o.2.1 : ℚ)⌋,
   ⌊qminL (l.map fun c => c.2.2) - (o.2.2 : ℚ)⌋)

/-- `hi_targ = np.ceil(src_coords_target.max((2,1,0)) - off + 1)`. -/
def targHi (inp tv : Vol) (ps tps : ℕ × ℕ × ℕ) (M : Mat4) : ℤ × ℤ × ℤ :=
  let o := centerOff inp tv
  let l := targetCoordList M ps tps
  (⌈qmaxL (l.map fun c => c.1) - (o.1 : ℚ) + 1⌉,
   ⌈qmaxL (l.map fun c => c.2.1) - (o.2.1 : ℚ) + 1⌉,
   ⌈qmaxL (l.map fun c => c.2.2) - (o.2.2 : ℚ) + 1⌉)

/-- The target out-of-bounds test:
`np.any(lo_targ < 0) or np.any(hi_targ >= target_src.shape[1:])`. -/
def targOOB (inp tv : Vol) (ps tps : ℕ × ℕ × ℕ) (M : Mat4) : Bool :=
  let lo := targLo inp tv ps tps M
  let hi := targHi inp tv ps tps M
  decide (lo.1 < 0) || decide (lo.2.1 < 0) || decide (lo.2.2 < 0)
    || decide ((tv.sh0 : ℤ) ≤ hi.1) || decide ((tv.sh1 : ℤ) ≤ hi.2.1)
    || decide ((tv.sh2 : ℤ) ≤ hi.2.2)

/-- The per-channel discrete flag: every channel is discrete when no index set
is supplied, else exactly the listed channels
(`target_discrete_ix = [i in target_discrete_ix for i in range(n_f_t)]`). -/
def discrFlag (tdix : Option (List ℕ)) (c : ℕ) : Bool :=
  match tdix with
  | none => true
  | some l => decide (c ∈ l)

/-- The interpolated target output of `warp_slice` before vector
re-projection: nearest for discrete channels, trilinear for the rest; the
kernels receive `lo_targ + off` while the sub-array is cut at `lo_targ`. -/
def targetOut (inp tv : Vol) (ps tps : ℕ × ℕ × ℕ) (M : Mat4)
    (tdix : Option (List ℕ)) : OutArr := fun c z x y =>
  let o := centerOff inp tv
  let lo := targLo inp tv ps tps M
  let cut := cutAt tv lo c
  let coord := targetCoordAt M ps tps z x y
  let loQ : ℚ × ℚ × ℚ :=
    (((lo.1 + o.1 : ℤ) : ℚ), ((lo.2.1 + o.2.1 : ℤ) : ℚ), ((lo.2.2 + o.2.2 : ℤ) : ℚ))
  if discrFlag tdix c then mapNearest cut coord loQ else mapLinear cut coord loQ

/-- `target[ix] = np.tensordot(M_lin, target[ix], axes=[[1],[0]])` applied
sequentially for each channel triple `ix` in `target_vec_ix`: re-projection
of interpolated 3-vectors through the linear 3x3 block of `M`. -/
def applyVecIx (M : Mat4) : OutArr → List (ℕ × ℕ × ℕ) → OutArr
  | t, [] => t
  | t, ix :: rest =>
      applyVecIx M
        (fun ch z x y =>
          if ch = ix.1 then
            M 0 0 * t ix.1 z x y + M 0 1 * t ix.2.1 z x y + M 0 2 * t ix.2.2 z x y
          else if ch = ix.2.1 then
            M 1 0 * t ix.1 z x y + M 1 1 * t ix.2.1 z x y + M 1 2 * t ix.2.2 z x y
          else if ch = ix.2.2 then
            M 2 0 * t ix.1 z x y + M 2 1 * t ix.2.1 z x y + M 2 2 * t ix.2.2 z x y
          else t ch z x y)
        rest

/-- `warp_slice(inp_src, ps, M, target_src, target_ps, target_vec_ix,
target_discrete_ix, last_ch_max_interp, ksize)`.  Mirrors the control flow of
the source: primary bounding box + OOB check, primary interpolation, then for
a supplied target the two centering parity checks, the target bounding box +
OOB check, per-channel interpolation and vector re-projection (whose
`assert np.allclose(M[3,:3], 0)` failure is `WErr.assertError`). -/
def warp_slice (inp : Vol) (ps : ℕ × ℕ × ℕ) (M : Mat4) (target : Option Vol)
    (tps : ℕ × ℕ × ℕ) (tvix : Option (List (ℕ × ℕ × ℕ))) (tdix : Option (List ℕ))
    (lcmi : Bool) (ksize : ℚ) : Except WErr (OutArr × Option OutArr) :=
  if warpOOB inp ps M then .error .oob
  else
    let inpF := primaryOut inp ps M lcmi ksize
    match target with
    | none => .ok (inpF, none)
    | some tv =>
        if ¬offParityOK inp tv then .error .valueError
        else if ¬psParityOK ps tps then .error .valueError
        else if targOOB inp tv ps tps M then .error .oob
        else
          let t0 := targetOut inp tv ps tps M tdix
          match tvix with
          | none => .ok (inpF, some t0)
          | some L =>
              if allClose3Zero M then .ok (inpF, some (applyVecIx M t0 L))
              else .error .assertError

/-- Discriminates the `WarpingOOBError` outcome of a `warp_slice` call. -/
def isOOBErr {α : Type} : Except WErr α → Bool
  | .error .oob => true
  | _ => false

/-! ### `get_tracing_slice` and `get_warped_slice` -/

/-- The kernel half-size `get_tracing_slice` hands to `warp_slice`:
`ksize = min(0.5, 0.5/scale_factor)`. -/
def tracingKsize (scale_factor : ℚ) : ℚ := min (1/2) (1/2 / scale_factor)

/-- `get_tracing_slice(...)`: builds
`M = chain_matrices([T_dest, S_zoom, S_dest, R, S_src, T_src])` around the
direction-derived rotation and calls `warp_slice`; returns the warped pair
and `M`. -/
def get_tracing_slice (ops : TrigOps) (img : Vol) (ps : ℕ × ℕ × ℕ)
    (pos : ℚ × ℚ × ℚ) (z_shift aniso_factor : ℚ) (sample_aniso : Bool)
    (gamma : GammaArg) (scale_factor : ℚ) (direction_iso : ℚ × ℚ × ℚ)
    (target : Option Vol) (target_ps : ℕ × ℕ × ℕ)
    (target_vec_ix : Option (List (ℕ × ℕ × ℕ))) (target_discrete_ix : Option (List ℕ))
    (rng : Rng) (last_ch_max_interp : Bool) :
    Except WErr ((OutArr × Option OutArr) × Mat4) :=
  let dc0 : ℚ := (ps.1 : ℚ) / 2 - z_shift
  let dc1 : ℚ := (ps.2.1 : ℚ) / 2
  let dc2 : ℚ := (ps.2.2 : ℚ) / 2
  match get_rotmat_from_direc ops direction_iso gamma rng with
  | .error e => .error e
  | .ok R =>
      let T_src := translate (-pos.1) (-pos.2.1) (-pos.2.2)
      let S_src := scale aniso_factor 1 1
      let S_zoom := scale scale_factor scale_factor scale_factor
      let S_dest := if sample_aniso then scale_inv aniso_factor 1 1 else idMat4
      let T_dest := translate dc0 dc1 dc2
      let M := chain_matrices [T_dest, S_zoom, S_dest, R, S_src, T_src]
      let ksize := tracingKsize scale_factor
      match warp_slice img ps M target target_ps target_vec_ix target_discrete_ix
          last_ch_max_interp ksize with
      | .error e => .error e
      | .ok out => .ok (out, M)

/-- The transform-construction half of `get_warped_slice` (3D path): samples
the random center and the flip/swap/rotation/warp factors in source order and
composes `M = chain_matrices([T_dest, S_dest, R, W, F, S, S_src, T_src])`.
The position-validity `assert` is `WErr.assertError`.  Note `W` draws from
the global state (`globalRng`), and that under `no_x_flip` the swap factor is
the identity and no swap draw is consumed. -/
def get_warped_slice_M (inp : Vol) (ps : ℕ × ℕ × ℕ) (ops : TrigOps)
    (aniso_factor : ℚ) (sample_aniso : Bool) (warp_amount : ℚ)
    (lock_z no_x_flip perspective : Bool) (target : Option Vol)
    (target_ps : ℕ × ℕ × ℕ) (globalRng rng : Rng) : Except WErr (Mat4 × Rng) :=
  let dc0 : ℚ := (ps.1 : ℚ) / 2
  let dc1 : ℚ := (ps.2.1 : ℚ) / 2
  let dc2 : ℚ := (ps.2.2 : ℚ) / 2
  let sr0 : ℚ := ((ps.1 % 2 : ℕ) : ℚ) / 2
  let sr1 : ℚ := ((ps.2.1 % 2 : ℕ) : ℚ) / 2
  let sr2 : ℚ := ((ps.2.2 % 2 : ℕ) : ℚ) / 2
  let bounds : (ℚ × ℚ × ℚ) × (ℚ × ℚ × ℚ) :=
    match target with
    | some tv =>
        let tc0 : ℚ := (target_ps.1 : ℚ) / 2
        let tc1 : ℚ := (target_ps.2.1 : ℚ) / 2
        let tc2 : ℚ := (target_ps.2.2 : ℚ) / 2
        let o := centerOff inp tv
        ((max dc0 (tc0 + (o.1 : ℚ)), max dc1 (tc1 + (o.2.1 : ℚ)),
          max dc2 (tc2 + (o.2.2 : ℚ))),
         (min ((inp.sh0 : ℚ) - dc0) ((tv.sh0 : ℚ) - tc0 + (o.1 : ℚ)),
          min ((inp.sh1 : ℚ) - dc1) ((tv.sh1 : ℚ) - tc1 + (o.2.1 : ℚ)),
          min ((inp.sh2 : ℚ) - dc2) ((tv.sh2 : ℚ) - tc2 + (o.2.2 : ℚ))))
    | none => ((dc0, dc1, dc2),
        ((inp.sh0 : ℚ) - dc0, (inp.sh1 : ℚ) - dc1, (inp.sh2 : ℚ) - dc2))
  if ¬(bounds.1.1 < bounds.2.1 ∧ bounds.1.2.1 < bounds.2.2.1
      ∧ bounds.1.2.2 < bounds.2.2.2) then .error .assertError
  else
    let dz := randintQ bounds.1.1 bounds.2.1 rng
    let z : ℚ := (dz.1 : ℚ) + sr0
    let dy := randintQ bounds.1.2.1 bounds.2.2.1 dz.2
    let y : ℚ := (dy.1 : ℚ) + sr1
    let dx := randintQ bounds.1.2.2 bounds.2.2.2 dy.2
    let x : ℚ := (dx.1 : ℚ) + sr2
    let dF := get_random_flipmat no_x_flip dx.2
    let dS := if no_x_flip then (idMat4, dF.2) else get_random_swapmat lock_z dF.2
    let dRW :=
      if |warp_amount| ≤ 1/100000000 then ((idMat4, idMat4), dS.2)
      else
        let dR := get_random_rotmat ops lock_z warp_amount dS.2
        ((dR.1, get_random_warpmat lock_z perspective warp_amount globalRng dR.2), dR.2)
    let T_src := translate (-z) (-y) (-x)
    let S_src := scale aniso_factor 1 1
    let S_dest := if sample_aniso then scale (1 / aniso_factor) 1 1 else idMat4
    let T_dest := translate dc0 dc1 dc2
    .ok (chain_matrices
      [T_dest, S_dest, dRW.1.1, dRW.1.2, dF.1, dS.1, S_src, T_src], dRW.2)

/-- The same transform construction with the axis-swap factor omitted
entirely (no swap draw, no factor in the chain): the composition the spec
ascribes to `get_warped_slice` when `no_x_flip` disables axis permutation. -/
def get_warped_slice_M_noswap (inp : Vol) (ps : ℕ × ℕ × ℕ) (ops : TrigOps)
    (aniso_factor : ℚ) (sample_aniso : Bool) (warp_amount : ℚ)
    (lock_z perspective : Bool) (target : Option Vol)
    (target_ps : ℕ × ℕ × ℕ) (globalRng rng : Rng) : Except WErr (Mat4 × Rng) :=
  let dc0 : ℚ := (ps.1 : ℚ) / 2
  let dc1 : ℚ := (ps.2.1 : ℚ) / 2
  let dc2 : ℚ := (ps.2.2 : ℚ) / 2
  let sr0 : ℚ := ((ps.1 % 2 : ℕ) : ℚ) / 2
  let sr1 : ℚ := ((ps.2.1 % 2 : ℕ) : ℚ) / 2
  let sr2 : ℚ := ((ps.2.2 % 2 : ℕ) : ℚ) / 2
  let bounds : (ℚ × ℚ × ℚ) × (ℚ × ℚ × ℚ) :=
    match target with
    | some tv =>
        let tc0 : ℚ := (target_ps.1 : ℚ) / 2
        let tc1 : ℚ := (target_ps.2.1 : ℚ) / 2
        let tc2 : ℚ := (target_ps.2.2 : ℚ) / 2
        let o := centerOff inp tv
        ((max dc0 (tc0 + (o.1 : ℚ)), max dc1 (tc1 + (o.2.1 : ℚ)),
          max dc2 (tc2 + (o.2.2 : ℚ))),
         (min ((inp.sh0 : ℚ) - dc0) ((tv.sh0 : ℚ) - tc0 + (o.1 : ℚ)),
          min ((inp.sh1 : ℚ) - dc1) ((tv.sh1 : ℚ) - tc1 + (o.2.1 : ℚ)),
          min ((inp.sh2 : ℚ) - dc2) ((tv.sh2 : ℚ) - tc2 + (o.2.2 : ℚ))))
    | none => ((dc0, dc1, dc2),
        ((inp.sh0 : ℚ) - dc0, (inp.sh1 : ℚ) - dc1, (inp.sh2 : ℚ) - dc2))
  if ¬(bounds.1.1 < bounds.2.1 ∧ bounds.1.2.1 < bounds.2.2.1
      ∧ bounds.1.2.2 < bounds.2.2.2) then .error .assertError
  else
    let dz := randintQ bounds.1.1 bounds.2.1 rng
    let z : ℚ := (dz.1 : ℚ) + sr0
    let dy := randintQ bounds.1.2.1 bounds.2.2.1 dz.2
    let y : ℚ := (dy.1 : ℚ) + sr1
    let dx := randintQ bounds.1.2.2 bounds.2.2.2 dy.2
    let x : ℚ := (dx.1 : ℚ) + sr2
    let dF := get_random_flipmat true dx.2
    let dRW :=
      if |warp_amount| ≤ 1/100000000 then ((idMat4, idMat4), dF.2)
      else
        let dR := get_random_rotmat ops lock_z warp_amount dF.2
        ((dR.1, get_random_warpmat lock_z perspective warp_amount globalRng dR.2), dR.2)
    let T_src := translate (-z) (-y) (-x)
    let S_src := scale aniso_factor 1 1
    let S_dest := if sample_aniso then scale (1 / aniso_factor) 1 1 else idMat4
    let T_dest := translate dc0 dc1 dc2
    .ok (chain_matrices
      [T_dest, S_dest, dRW.1.1, dRW.1.2, dF.1, S_src, T_src], dRW.2)

/-- `get_warped_slice(...)` (3D path): sample the transform, then extract. -/
def get_warped_slice (inp : Vol) (ps : ℕ × ℕ × ℕ) (ops : TrigOps)
    (aniso_factor : ℚ) (sample_aniso : Bool) (warp_amount : ℚ)
    (lock_z no_x_flip perspective : Bool) (target : Option Vol)
    (target_ps : ℕ × ℕ × ℕ) (target_vec_ix : Option (List (ℕ × ℕ × ℕ)))
    (target_discrete_ix : Option (List ℕ)) (globalRng rng : Rng) :
    Except WErr (OutArr × Option OutArr) :=
  match get_warped_slice_M inp ps ops aniso_factor sample_aniso warp_amount
      lock_z no_x_flip perspective target target_ps globalRng rng with
  | .error e => .error e
  | .ok Mr =>
      warp_slice inp ps Mr.1 target target_ps target_vec_ix target_discrete_ix
        false (1/2)


/-! ### Concrete objects used by witnesses and counterexamples -/

/-- The all-zeros unit-draw stream. -/
def gZero : Rng := ⟨fun _ => 0, 0⟩

/-- The all-ones unit-draw stream. -/
def gOne : Rng := ⟨fun _ => 1, 0⟩

/-- A concrete `TrigOps` interpretation used by witnesses (each rotation
becomes the identity; `sqrt` reports unit length). -/
def tops : TrigOps := ⟨fun _ => 0, fun _ => 1, fun _ _ => 0, fun _ => 0, fun _ => 0, fun _ => 1, 0⟩

/-- A 1-channel all-zero volume of spatial shape `(5, 5, 5)`. -/
def V155 : Vol := ⟨1, 5, 5, 5, fun _ _ _ _ => 0⟩

/-- A 1-channel all-zero volume of spatial shape `(4, 5, 5)` (odd extent
difference against `V155` along axis 0). -/
def V455 : Vol := ⟨1, 4, 5, 5, fun _ _ _ _ => 0⟩

/-- A 2-channel volume of spatial shape `(5, 5, 5)` whose channel `c` holds
the constant value `c + 1`. -/
def V255 : Vol := ⟨2, 5, 5, 5, fun c _ _ _ => (c : ℚ) + 1⟩

/-- A pure 90-degree rotation in the (x, y)-plane composed with the
translation that centers the extracted voxel at source position `(2, 2, 2)`:
`M·(2,2,2,1) = (0,0,0,1)`. -/
def M90 : Mat4 :=
  mk4 1 0 0    (-2)
      0 0 (-1) 2
      0 1 0    (-2)
      0 0 0    1

/-- A 3-channel volume of spatial shape `(5, 5, 5)` holding the constant
vector field `(0, 0, 1)` in channels `(0, 1, 2)`. -/
def V355 : Vol := ⟨3, 5, 5, 5, fun c _ _ _ => if c = 2 then 1 else 0⟩

/-- A 1-channel all-zero volume of spatial shape `(3, 3, 3)`. -/
def V133 : Vol := ⟨1, 3, 3, 3, fun _ _ _ _ => 0⟩

/-! ### Helper lemmas: matrix entry evaluation and algebra -/

theorem mk4_e00 (a00 a01 a02 a03 a10 a11 a12 a13 a20 a21 a22 a23 a30 a31 a32 a33 : ℚ) :
    mk4 a00 a01 a02 a03 a10 a11 a12 a13 a20 a21 a22 a23 a30 a31 a32 a33 0 0 = a00 := rfl

theorem mk4_e01 (a00 a01 a02 a03 a10 a11 a12 a13 a20 a21 a22 a23 a30 a31 a32 a33 : ℚ) :
    mk4 a00 a01 a02 a03 a10 a11 a12 a13 a20 a21 a22 a23 a30 a31 a32 a33 0 1 = a01 := rfl

theorem mk4_e02 (a00 a01 a02 a03 a10 a11 a12 a13 a20 a21 a22 a23 a30 a31 a32 a33 : ℚ) :
    mk4 a00 a01 a02 a03 a10 a11 a12 a13 a20 a21 a22 a23 a30 a31 a32 a33 0 2 = a02 := rfl

theorem mk4_e03 (a00 a01 a02 a03 a10 a11 a12 a13 a20 a21 a22 a23 a30 a31 a32 a33 : ℚ) :
    mk4 a00 a01 a02 a03 a10 a11 a12 a13 a20 a21 a22 a23 a30 a31 a32 a33 0 3 = a03 := rfl

theorem mk4_e10 (a00 a01 a02 a03 a10 a11 a12 a13 a20 a21 a22 a23 a30 a31 a32 a33 : ℚ) :
    mk4 a00 a01 a02 a03 a10 a11 a12 a13 a20 a21 a22 a23 a30 a31 a32 a33 1 0 = a10 := rfl

theorem mk4_e11 (a00 a01 a02 a03 a10 a11 a12 a13 a20 a21 a22 a23 a30 a31 a32 a33 : ℚ) :
    mk4 a00 a01 a02 a03 a10 a11 a12 a13 a20 a21 a22 a23 a30 a31 a32 a33 1 1 = a11 := rfl

theorem mk4_e12 (a00 a01 a02 a03 a10 a11 a12 a13 a20 a21 a22 a23 a30 a31 a32 a33 : ℚ) :
    mk4 a00 a01 a02 a03 a10 a11 a12 a13 a20 a21 a22 a23 a30 a31 a32 a33 1 2 = a12 := rfl

theorem mk4_e13 (a00 a01 a02 a03 a10 a11 a12 a13 a20 a21 a22 a23 a30 a31 a32 a33 : ℚ) :
    mk4 a00 a01 a02 a03 a10 a11 a12 a13 a20 a21 a22 a23 a30 a31 a32 a33 1 3 = a13 := rfl

theorem mk4_e20 (a00 a01 a02 a03 a10 a11 a12 a13 a20 a21 a22 a23 a30 a31 a32 a33 : ℚ) :
    mk4 a00 a01 a02 a03 a10 a11 a12 a13 a20 a21 a22 a23 a30 a31 a32 a33 2 0 = a20 := rfl

theorem mk4_e21 (a00 a01 a02 a03 a10 a11 a12 a13 a20 a21 a22 a23 a30 a31 a32 a33 : ℚ) :
    mk4 a00 a01 a02 a03 a10 a11 a12 a13 a20 a21 a22 a23 a30 a31 a32 a33 2 1 = a21 := rfl

theorem mk4_e22 (a00 a01 a02 a03 a10 a11 a12 a13 a20 a21 a22 a23 a30 a31 a32 a33 : ℚ) :
    mk4 a00 a01 a02 a03 a10 a11 a12 a13 a20 a21 a22 a23 a30 a31 a32 a33 2 2 = a22 := rfl

theorem mk4_e23 (a00 a01 a02 a03 a10 a11 a12 a13 a20 a21 a22 a23 a30 a31 a32 a33 : ℚ) :
    mk4 a00 a01 a02 a03 a10 a11 a12 a13 a20 a21 a22 a23 a30 a31 a32 a33 2 3 = a23 := rfl

theorem mk4_e30 (a00 a01 a02 a03 a10 a11 a12 a13 a20 a21 a22 a23 a30 a31 a32 a33 : ℚ) :
    mk4 a00 a01 a02 a03 a10 a11 a12 a13 a20 a21 a22 a23 a30 a31 a32 a33 3 0 = a30 := rfl

theorem mk4_e31 (a00 a01 a02 a03 a10 a11 a12 a13 a20 a21 a22 a23 a30 a31 a32 a33 : ℚ) :
    mk4 a00 a01 a02 a03 a10 a11 a12 a13 a20 a21 a22 a23 a30 a31 a32 a33 3 1 = a31 := rfl

theorem mk4_e32 (a00 a01 a02 a03 a10 a11 a12 a13 a20 a21 a22 a23 a30 a31 a32 a33 : ℚ) :
    mk4 a00 a01 a02 a03 a10 a11 a12 a13 a20 a21 a22 a23 a30 a31 a32 a33 3 2 = a32 := rfl

theorem mk4_e33 (a00 a01 a02 a03 a10 a11 a12 a13 a20 a21 a22 a23 a30 a31 a32 a33 : ℚ) :
    mk4 a00 a01 a02 a03 a10 a11 a12 a13 a20 a21 a22 a23 a30 a31 a32 a33 3 3 = a33 := rfl

theorem skip4_00 : skip4 0 0 = 1 := rfl

theorem skip4_01 : skip4 0 1 = 2 := rfl

theorem skip4_02 : skip4 0 2 = 3 := rfl

theorem skip4_10 : skip4 1 0 = 0 := rfl

theorem skip4_11 : skip4 1 1 = 2 := rfl

theorem skip4_12 : skip4 1 2 = 3 := rfl

theorem skip4_20 : skip4 2 0 = 0 := rfl

theorem skip4_21 : skip4 2 1 = 1 := rfl

theorem skip4_22 : skip4 2 2 = 3 := rfl

theorem skip4_30 : skip4 3 0 = 0 := rfl

theorem skip4_31 : skip4 3 1 = 1 := rfl

theorem skip4_32 : skip4 3 2 = 2 := rfl


theorem matMul_id_left (A : Mat4) : matMul idMat4 A = A := by
  funext i j
  fin_cases i <;>
    simp [matMul, idMat4, mk4_e00, mk4_e01, mk4_e02, mk4_e03, mk4_e10, mk4_e11,
      mk4_e12, mk4_e13, mk4_e20, mk4_e21, mk4_e22, mk4_e23, mk4_e30, mk4_e31,
      mk4_e32, mk4_e33]

theorem matMul_id_right (A : Mat4) : matMul A idMat4 = A := by
  funext i j
  fin_cases j <;>
    simp [matMul, idMat4, mk4_e00, mk4_e01, mk4_e02, mk4_e03, mk4_e10, mk4_e11,
      mk4_e12, mk4_e13, mk4_e20, mk4_e21, mk4_e22, mk4_e23, mk4_e30, mk4_e31,
      mk4_e32, mk4_e33]

theorem inv4_id : inv4 idMat4 = idMat4 := by
  funext i j
  fin_cases i <;> fin_cases j <;>
    norm_num [inv4, adj4, det4, minor4, det3f, idMat4,
      mk4_e00, mk4_e01, mk4_e02, mk4_e03, mk4_e10, mk4_e11, mk4_e12, mk4_e13,
      mk4_e20, mk4_e21, mk4_e22, mk4_e23, mk4_e30, mk4_e31, mk4_e32, mk4_e33,
      skip4_00, skip4_01, skip4_02, skip4_10, skip4_11, skip4_12,
      skip4_20, skip4_21, skip4_22, skip4_30, skip4_31, skip4_32]

theorem isProj_id : isProj idMat4 = false := by
  simp [isProj, idMat4, mk4_e30, mk4_e31, mk4_e32]

theorem invMapPoint_id (z x y : ℚ) :
    invMapPoint idMat4 false z x y = (z, x, y) := by
  simp [invMapPoint, idMat4, mk4_e00, mk4_e01, mk4_e02, mk4_e03, mk4_e10,
    mk4_e11, mk4_e12, mk4_e13, mk4_e20, mk4_e21, mk4_e22, mk4_e23]

theorem truncQ_intCast (n : ℤ) : truncQ (n : ℚ) = n := by
  unfold truncQ
  split
  · rw [show -((n : ℚ)) = ((-n : ℤ) : ℚ) by push_cast; ring, Int.floor_intCast]
    ring
  · exact Int.floor_intCast n

theorem truncQ_natCast (n : ℕ) : truncQ (n : ℚ) = n := by
  have := truncQ_intCast (n : ℤ)
  simpa using this

theorem npRound_intCast (n : ℤ) : npRound (n : ℚ) = n := by
  unfold npRound
  norm_num

theorem npRound_natCast (n : ℕ) : npRound (n : ℚ) = n := by
  have := npRound_intCast (n : ℤ)
  simpa using this

theorem foldl_min_le_init {α : Type} [LinearOrder α] (xs : List α) (a : α) :
    xs.foldl min a ≤ a := by
  induction xs generalizing a with
  | nil => simp
  | cons x xs ih =>
      simp only [List.foldl_cons]
      exact le_trans (ih (min a x)) (min_le_left a x)

theorem foldl_min_le_mem {α : Type} [LinearOrder α] {xs : List α} {x : α}
    (hx : x ∈ xs) (a : α) : xs.foldl min a ≤ x := by
  induction xs generalizing a with
  | nil => cases hx
  | cons y ys ih =>
      rcases List.mem_cons.mp hx with h | h
      · subst h
        exact le_trans (foldl_min_le_init ys (min a x)) (min_le_right a x)
      · exact ih h (min a y)

theorem le_foldl_min {α : Type} [LinearOrder α] {xs : List α} {b : α}
    (h : ∀ x ∈ xs, b ≤ x) {a : α} (ha : b ≤ a) : b ≤ xs.foldl min a := by
  induction xs generalizing a with
  | nil => simpa
  | cons y ys ih =>
      simp only [List.foldl_cons]
      exact ih (fun x hx => h x (List.mem_cons_of_mem y hx))
        (le_min ha (h y (List.mem_cons_self y ys)))

theorem init_le_foldl_max {α : Type} [LinearOrder α] (xs : List α) (a : α) :
    a ≤ xs.foldl max a := by
  induction xs generalizing a with
  | nil => simp
  | cons x xs ih =>
      simp only [List.foldl_cons]
      exact le_trans (le_max_left a x) (ih (max a x))

theorem mem_le_foldl_max {α : Type} [LinearOrder α] {xs : List α} {x : α}
    (hx : x ∈ xs) (a : α) : x ≤ xs.foldl max a := by
  induction xs generalizing a with
  | nil => cases hx
  | cons y ys ih =>
      rcases List.mem_cons.mp hx with h | h
      · subst h
        exact le_trans (le_max_right a x) (init_le_foldl_max ys (max a x))
      · exact ih h (max a y)

theorem foldl_max_le {α : Type} [LinearOrder α] {xs : List α} {b : α}
    (h : ∀ x ∈ xs, x ≤ b) {a : α} (ha : a ≤ b) : xs.foldl max a ≤ b := by
  induction xs generalizing a with
  | nil => simpa
  | cons y ys ih =>
      simp only [List.foldl_cons]
      exact ih (fun x hx => h x (List.mem_cons_of_mem y hx))
        (max_le ha (h y (List.mem_cons_self y ys)))


theorem zminL_eq {l : List ℤ} {m : ℤ} (hm : m ∈ l) (h : ∀ x ∈ l, m ≤ x) :
    zminL l = m := by
  cases l with
  | nil => cases hm
  | cons x xs =>
      apply le_antisymm
      · rcases List.mem_cons.mp hm with h1 | h1
        · subst h1
          exact foldl_min_le_init xs m
        · exact foldl_min_le_mem h1 x
      · exact le_foldl_min (fun y hy => h y (List.mem_cons_of_mem x hy))
          (h x (List.mem_cons_self x xs))

theorem zmaxL_eq {l : List ℤ} {m : ℤ} (hm : m ∈ l) (h : ∀ x ∈ l, x ≤ m) :
    zmaxL l = m := by
  cases l with
  | nil => cases hm
  | cons x xs =>
      apply le_antisymm
      · exact foldl_max_le (fun y hy => h y (List.mem_cons_of_mem x hy))
          (h x (List.mem_cons_self x xs))
      · rcases List.mem_cons.mp hm with h1 | h1
        · subst h1
          exact init_le_foldl_max xs m
        · exact mem_le_foldl_max h1 x

theorem qminL_eq {l : List ℚ} {m : ℚ} (hm : m ∈ l) (h : ∀ x ∈ l, m ≤ x) :
    qminL l = m := by
  cases l with
  | nil => cases hm
  | cons x xs =>
      apply le_antisymm
      · rcases List.mem_cons.mp hm with h1 | h1
        · subst h1
          exact foldl_min_le_init xs m
        · exact foldl_min_le_mem h1 x
      · exact le_foldl_min (fun y hy => h y (List.mem_cons_of_mem x hy))
          (h x (List.mem_cons_self x xs))

theorem qmaxL_eq {l : List ℚ} {m : ℚ} (hm : m ∈ l) (h : ∀ x ∈ l, x ≤ m) :
    qmaxL l = m := by
  cases l with
  | nil => cases hm
  | cons x xs =>
      apply le_antisymm
      · exact foldl_max_le (fun y hy => h y (List.mem_cons_of_mem x hy))
          (h x (List.mem_cons_self x xs))
      · rcases List.mem_cons.mp hm with h1 | h1
        · subst h1
          exact init_le_foldl_max xs m
        · exact mem_le_foldl_max h1 x


theorem mapLinear_intCoord (src : ℤ → ℤ → ℤ → ℚ) (z x y l0 l1 l2 : ℤ) :
    mapLinear src ((z : ℚ), (x : ℚ), (y : ℚ)) ((l0 : ℚ), (l1 : ℚ), (l2 : ℚ))
      = src (z - l0) (x - l1) (y - l2) := by
  unfold mapLinear
  simp only
  rw [show (z : ℚ) - (l0 : ℚ) = ((z - l0 : ℤ) : ℚ) by push_cast; ring,
    show (x : ℚ) - (l1 : ℚ) = ((x - l1 : ℤ) : ℚ) by push_cast; ring,
    show (y : ℚ) - (l2 : ℚ) = ((y - l2 : ℤ) : ℚ) by push_cast; ring,
    truncQ_intCast, truncQ_intCast, truncQ_intCast]
  ring

theorem mapNearest_intCoord (src : ℤ → ℤ → ℤ → ℚ) (z x y l0 l1 l2 : ℤ) :
    mapNearest src ((z : ℚ), (x : ℚ), (y : ℚ)) ((l0 : ℚ), (l1 : ℚ), (l2 : ℚ))
      = src (z - l0) (x - l1) (y - l2) := by
  unfold mapNearest
  simp only
  rw [show (z : ℚ) - (l0 : ℚ) = ((z - l0 : ℤ) : ℚ) by push_cast; ring,
    show (x : ℚ) - (l1 : ℚ) = ((x - l1 : ℤ) : ℚ) by push_cast; ring,
    show (y : ℚ) - (l2 : ℚ) = ((y - l2 : ℤ) : ℚ) by push_cast; ring,
    npRound_intCast, npRound_intCast, npRound_intCast]


/-! ### Claim C4 -/

/-- Claim C4 (code bug in `get_random_warpmat`): the returned matrix is a
function of the global draw stream only — it is invariant under changing the
`rng` argument (first conjunct, for every argument combination), yet two
different global states yield different matrices for the same `rng` (second
conjunct), so the sampler's output is NOT determined by the externally
supplied random source. -/
theorem get_random_warpmat_global_state_dependence :
    (∀ (lz p : Bool) (a : ℚ) (g r r' : Rng) (i j : Fin 4),
       get_random_warpmat lz p a g r i j = get_random_warpmat lz p a g r' i j)
    ∧ get_random_warpmat false false 1 gZero gZero 0 1
        ≠ get_random_warpmat false false 1 gOne gZero 0 1 := by
  constructor
  · intro lz p a g r r' i j
    rfl
  · have h3 : ¬((0 : Fin 4) = 3) := by decide
    have h13 : ¬((0 : Fin 4) = 3 ∧ ¬(1 : Fin 4) = 3) := by decide
    norm_num [get_random_warpmat, gZero, gOne, idMat4, mk4_e01, npClip, h3, h13]


theorem abs_npClip_le (y c : ℚ) (hc : 0 ≤ c) : |npClip y (-c) c| ≤ |y| := by
  unfold npClip
  rw [abs_le]
  constructor
  · exact le_min (le_trans (neg_abs_le y) (le_max_left y (-c)))
      (le_trans (neg_nonpos_of_nonneg (abs_nonneg y)) hc)
  · exact le_trans (min_le_left _ _)
      (max_le (le_abs_self y) (le_trans (neg_nonpos_of_nonneg hc) (abs_nonneg y)))

theorem abs_npClip_le_bound (y c : ℚ) (hc : 0 ≤ c) : |npClip y (-c) c| ≤ c := by
  unfold npClip
  rw [abs_le]
  constructor
  · exact le_min (le_trans (neg_le_neg (le_refl c)) (le_max_right y (-c))) (neg_le_self hc)
  · exact min_le_right _ _

/-! ### Claim C5 -/

theorem ite_abs_bound {c : Prop} [Decidable c] {a b B : ℚ} (h1 : |a| ≤ B)
    (h2 : |b| ≤ B) : |(if c then a else b)| ≤ B := by
  split
  · exact h1
  · exact h2

/-- Claim C5 (counterexample): with `perspective = False` the perturbation's
last COLUMN is not forced to zero — for the all-ones global draw stream the
`(1, 3)` translation entry of `get_random_warpmat(...)` is `1/10`, not the
identity's `0`. -/
theorem get_random_warpmat_translation_column_nonzero :
    ¬get_random_warpmat false false 1 gOne gZero 1 3 = 0 := by
  have hA : ¬((1 : Fin 4) = 3) := by decide
  have hB : ¬((1 : Fin 4) = 0) := by decide
  have hC : ¬((3 : Fin 4) = 0) := by decide
  norm_num [get_random_warpmat, gOne, idMat4, mk4_e13, npClip, hA, hB, hC]

/-- Claim C5 (amended): for unit draws and `0 ≤ amount`,
`get_random_warpmat(lock_z, perspective, amount, rng)` is the identity plus a
perturbation with (1) every entry bounded by `0.1·amount`, (2) zero at the
`(3,3)` slot, (3) the whole last ROW zero when `perspective` is off (the last
column is NOT zeroed — see the counterexample), (4) the perspective-row
entries clamped into `[-3e-3, 3e-3]` when `perspective` is on, and (5) zero
first row and column under `lock_z`. -/
theorem get_random_warpmat_structure (lz p : Bool) (amt : ℚ) (g r : Rng)
    (hs : ∀ n, 0 ≤ g.stream n ∧ g.stream n ≤ 1) (ha : 0 ≤ amt) :
    (∀ i j, |get_random_warpmat lz p amt g r i j - idMat4 i j| ≤ amt * (1/10))
    ∧ get_random_warpmat lz p amt g r 3 3 = 1
    ∧ (p = false → ∀ j, get_random_warpmat lz p amt g r 3 j = idMat4 3 j)
    ∧ (p = true → ∀ j, ¬j = 3 →
        |get_random_warpmat lz p amt g r 3 j - idMat4 3 j| ≤ 3/1000)
    ∧ (lz = true → ∀ j, get_random_warpmat lz p amt g r 0 j = idMat4 0 j
        ∧ get_random_warpmat lz p amt g r j 0 = idMat4 j 0) := by
  have h0 : |(0 : ℚ)| ≤ amt * (1/10) := by
    rw [abs_zero]
    linarith
  have hr : ∀ n, |-(amt * (1/10)) + 2 * (amt * (1/10)) * g.stream n| ≤ amt * (1/10) := by
    intro n
    obtain ⟨hu0, hu1⟩ := hs n
    rw [abs_le]
    constructor <;> nlinarith
  have hb : ∀ v : ℚ, |v| ≤ amt * (1/10) →
      |npClip (v * (1/20)) (-(3/1000)) (3/1000)| ≤ amt * (1/10) := by
    intro v hv
    refine le_trans (abs_npClip_le _ _ (by norm_num)) ?_
    rw [abs_mul]
    rw [show |(1:ℚ)/20| = 1/20 by norm_num]
    nlinarith [abs_nonneg v]
  have k30 : ¬((3 : Fin 4) = 0) := by decide
  have k03 : ¬((0 : Fin 4) = 3) := by decide
  refine ⟨?_, ?_, ?_, ?_, ?_⟩
  · intro i j
    simp only [get_random_warpmat]
    rw [add_sub_cancel_left]
    exact ite_abs_bound
      (hb _ (ite_abs_bound h0 (ite_abs_bound h0 (ite_abs_bound h0 (hr _)))))
      (ite_abs_bound h0 (ite_abs_bound h0 (ite_abs_bound h0 (hr _))))
  · cases p <;> cases lz <;>
      simp [get_random_warpmat, idMat4, mk4_e33, k30]
  · intro hp j
    subst hp
    by_cases hj : j = 3
    · subst hj
      cases lz <;> simp [get_random_warpmat, k30]
    · cases lz <;> simp [get_random_warpmat, npClip, hj, k30] <;> norm_num
  · intro hp j hj
    subst hp
    simp only [get_random_warpmat]
    rw [add_sub_cancel_left]
    simp only [hj, eq_self_iff_true, not_false_iff, true_and, and_true, if_true]
    exact abs_npClip_le_bound _ _ (by norm_num)
  · intro hl j
    subst hl
    constructor
    · by_cases hj : j = 0 <;> cases p <;>
        simp [get_random_warpmat, npClip, hj, k03]
    · by_cases hj3 : j = 3
      · subst hj3
        cases p <;> simp [get_random_warpmat, npClip, k30] <;> norm_num
      · by_cases hj0 : j = 0 <;> cases p <;>
          simp [get_random_warpmat, npClip, hj3, hj0, k03, k30]

/-- Claim C5 (witness): the amended structure theorem instantiated at
`lock_z = perspective = true`, `amount = 1`, the all-ones global stream. -/
theorem get_random_warpmat_structure_witness :
    ((∀ n, 0 ≤ gOne.stream n ∧ gOne.stream n ≤ 1) ∧ (0 : ℚ) ≤ 1)
    ∧ ((∀ i j, |get_random_warpmat true true 1 gOne gZero i j - idMat4 i j| ≤ 1 * (1/10))
      ∧ get_random_warpmat true true 1 gOne gZero 3 3 = 1
      ∧ (true = false → ∀ j, get_random_warpmat true true 1 gOne gZero 3 j = idMat4 3 j)
      ∧ (true = true → ∀ j, ¬j = 3 →
          |get_random_warpmat true true 1 gOne gZero 3 j - idMat4 3 j| ≤ 3/1000)
      ∧ (true = true → ∀ j, get_random_warpmat true true 1 gOne gZero 0 j = idMat4 0 j
          ∧ get_random_warpmat true true 1 gOne gZero j 0 = idMat4 j 0)) :=
  ⟨⟨fun _ => by norm_num [gOne], by norm_num⟩,
   get_random_warpmat_structure true true 1 gOne gZero
     (fun _ => by norm_num [gOne]) (by norm_num)⟩


/-! ### Claim C2 -/

theorem inv4_translate (a b c : ℚ) :
    inv4 (translate a b c) = translate (-a) (-b) (-c) := by
  funext i j
  fin_cases i <;> fin_cases j <;>
    norm_num [inv4, adj4, det4, minor4, det3f, translate,
      mk4_e00, mk4_e01, mk4_e02, mk4_e03, mk4_e10, mk4_e11, mk4_e12, mk4_e13,
      mk4_e20, mk4_e21, mk4_e22, mk4_e23, mk4_e30, mk4_e31, mk4_e32, mk4_e33,
      skip4_00, skip4_01, skip4_02, skip4_10, skip4_11, skip4_12,
      skip4_20, skip4_21, skip4_22, skip4_30, skip4_31, skip4_32]

theorem isProj_translate (a b c : ℚ) : isProj (translate a b c) = false := by
  simp [isProj, translate, mk4_e30, mk4_e31, mk4_e32]


/-- Claim C2 (confirmed): with no target volume, `warp_slice` raises
`WarpingOOBError` exactly when the corner-derived bounding box
(`lo = min of floors`, `hi = max of ceils of corner + 1`) violates
`lo ≥ 0` / `hi < shape` (first conjunct); in particular, on a `5×5×5` source
with patch `(3,3,3)`, the translation by `(1,1,1)` (box `[1,4]`, touching the
last voxel, `hi = shape - 1` inclusive) does not raise, while the translation
by `(2,2,2)` (box needing voxel 5) raises. -/
theorem warp_slice_oob_iff :
    (∀ (inp : Vol) (ps : ℕ × ℕ × ℕ) (M : Mat4) (tps : ℕ × ℕ × ℕ)
       (tvix : Option (List (ℕ × ℕ × ℕ))) (tdix : Option (List ℕ))
       (lcmi : Bool) (ksize : ℚ),
       isOOBErr (warp_slice inp ps M none tps tvix tdix lcmi ksize)
         = warpOOB inp ps M)
    ∧ isOOBErr (warp_slice V155 (3, 3, 3) (translate (-1) (-1) (-1)) none (0, 0, 0)
        none none false (1/2)) = false
    ∧ isOOBErr (warp_slice V155 (3, 3, 3) (translate (-2) (-2) (-2)) none (0, 0, 0)
        none none false (1/2)) = true := by
  have main : ∀ (inp : Vol) (ps : ℕ × ℕ × ℕ) (M : Mat4) (tps : ℕ × ℕ × ℕ)
      (tvix : Option (List (ℕ × ℕ × ℕ))) (tdix : Option (List ℕ))
      (lcmi : Bool) (ksize : ℚ),
      isOOBErr (warp_slice inp ps M none tps tvix tdix lcmi ksize)
        = warpOOB inp ps M := by
    intro inp ps M tps tvix tdix lcmi ksize
    cases h : warpOOB inp ps M <;> simp [warp_slice, h, isOOBErr]
  refine ⟨main, ?_, ?_⟩
  · rw [main]
    have hc : srcCornersQ (3, 3, 3) (inv4 (translate (-1) (-1) (-1)))
        (isProj (translate (-1) (-1) (-1)))
        = [((1:ℚ), (1:ℚ), (1:ℚ)), (1, 1, 3), (1, 3, 1), (1, 3, 3),
           (3, 1, 1), (3, 1, 3), (3, 3, 1), (3, 3, 3)] := by
      rw [inv4_translate, isProj_translate]
      norm_num [srcCornersQ, make_dest_corners, invMapPoint, translate, List.map,
        mk4_e00, mk4_e01, mk4_e02, mk4_e03, mk4_e10, mk4_e11, mk4_e12, mk4_e13,
        mk4_e20, mk4_e21, mk4_e22, mk4_e23]
    simp only [warpOOB, hc]
    norm_num [warpLo, warpHi, zminL, zmaxL, List.map, List.foldl, V155]
  · rw [main]
    have hc : srcCornersQ (3, 3, 3) (inv4 (translate (-2) (-2) (-2)))
        (isProj (translate (-2) (-2) (-2)))
        = [((2:ℚ), (2:ℚ), (2:ℚ)), (2, 2, 4), (2, 4, 2), (2, 4, 4),
           (4, 2, 2), (4, 2, 4), (4, 4, 2), (4, 4, 4)] := by
      rw [inv4_translate, isProj_translate]
      norm_num [srcCornersQ, make_dest_corners, invMapPoint, translate, List.map,
        mk4_e00, mk4_e01, mk4_e02, mk4_e03, mk4_e10, mk4_e11, mk4_e12, mk4_e13,
        mk4_e20, mk4_e21, mk4_e22, mk4_e23]
    simp only [warpOOB, hc]
    norm_num [warpLo, warpHi, zminL, zmaxL, List.map, List.foldl, V155]


/-! ### Claim C9 -/

/-- Claim C9 (confirmed): for any interpretation of the transcendental
operations, `get_rotmat_from_direc(direc, gamma, rng)` returns exactly
`rotate_z(gamma) · rotate_y(-theta) · rotate_z(-phi)` with
`phi = arctan2(direc[2], direc[1])` and `theta = arccos(direc[0])` whenever
the norm check `|‖direc‖ - 1| < 1e-3` passes, and fails with the assertion
error for every `gamma` argument (fixed, absent or `'rand'`) when it does
not. -/
theorem get_rotmat_from_direc_spec (ops : TrigOps) (d0 d1 d2 g : ℚ) (rng : Rng) :
    (|ops.sqrt (d0 * d0 + d1 * d1 + d2 * d2) - 1| < 1/1000 →
      get_rotmat_from_direc ops (d0, d1, d2) (.val g) rng
        = .ok (matMul (matMul (rotate_z ops g) (rotate_y ops (-ops.arccos d0)))
            (rotate_z ops (-ops.arctan2 d2 d1))))
    ∧ (¬|ops.sqrt (d0 * d0 + d1 * d1 + d2 * d2) - 1| < 1/1000 →
      ∀ ga : GammaArg,
        get_rotmat_from_direc ops (d0, d1, d2) ga rng = .error .assertError) := by
  constructor
  · intro h
    unfold get_rotmat_from_direc
    unfold get_euler_angles
    dsimp only
    rw [if_pos h]
    dsimp only [chain_matrices, List.foldl]
    rw [matMul_id_left]
  · intro h ga
    unfold get_rotmat_from_direc
    unfold get_euler_angles
    cases ga <;>
      · dsimp only
        rw [if_neg h]

/-- Claim C9 (witness): the specification applied at the unit direction
`(1, 0, 0)` with `gamma = 0` under the concrete `tops` interpretation. -/
theorem get_rotmat_from_direc_spec_witness :
    (|tops.sqrt ((1:ℚ) * 1 + 0 * 0 + 0 * 0) - 1| < 1/1000)
    ∧ get_rotmat_from_direc tops (1, 0, 0) (.val 0) gZero
        = .ok (matMul (matMul (rotate_z tops 0) (rotate_y tops (-tops.arccos 1)))
            (rotate_z tops (-tops.arctan2 0 0))) :=
  ⟨by norm_num [tops],
   (get_rotmat_from_direc_spec tops 1 0 0 0 gZero).1 (by norm_num [tops])⟩


/-! ### Claim C3 -/

theorem primaryOut_lcmi_irrelevant (inp : Vol) (ps : ℕ × ℕ × ℕ) (M : Mat4)
    (ksize : ℚ) (h : ksize ≤ 1/2) :
    primaryOut inp ps M true ksize = primaryOut inp ps M false ksize := by
  funext c z x y
  unfold primaryOut
  dsimp only
  rw [if_neg fun hc => absurd hc.1 (not_lt.mpr h),
    if_neg fun hc => absurd hc.1 (not_lt.mpr h)]

theorem warp_slice_lcmi_irrelevant (inp : Vol) (ps : ℕ × ℕ × ℕ) (M : Mat4)
    (target : Option Vol) (tps : ℕ × ℕ × ℕ) (tvix : Option (List (ℕ × ℕ × ℕ)))
    (tdix : Option (List ℕ)) (ksize : ℚ) (h : ksize ≤ 1/2) :
    warp_slice inp ps M target tps tvix tdix true ksize
      = warp_slice inp ps M target tps tvix tdix false ksize := by
  unfold warp_slice
  rw [primaryOut_lcmi_irrelevant inp ps M ksize h]

/-- Claim C3 (code bug in `get_tracing_slice`): the kernel half-size handed to
`warp_slice` is `ksize = min(0.5, 0.5/scale_factor)`, which never exceeds
`0.5` — so the max-kernel guard `ksize > 0.5` can never fire and the
`last_ch_max_interp` opt-in has no effect whatsoever on the result; the
kernel size does NOT grow when zooming out (downsampling), contrary to the
claim and the spec. -/
theorem get_tracing_slice_max_kernel_dead (ops : TrigOps) (img : Vol)
    (ps : ℕ × ℕ × ℕ) (pos : ℚ × ℚ × ℚ) (z_shift aniso_factor : ℚ)
    (sample_aniso : Bool) (gamma : GammaArg) (scale_factor : ℚ)
    (direction_iso : ℚ × ℚ × ℚ) (target : Option Vol) (target_ps : ℕ × ℕ × ℕ)
    (target_vec_ix : Option (List (ℕ × ℕ × ℕ))) (target_discrete_ix : Option (List ℕ))
    (rng : Rng) (h : 0 < scale_factor) :
    tracingKsize scale_factor ≤ 1/2
    ∧ get_tracing_slice ops img ps pos z_shift aniso_factor sample_aniso gamma
        scale_factor direction_iso target target_ps target_vec_ix
        target_discrete_ix rng true
      = get_tracing_slice ops img ps pos z_shift aniso_factor sample_aniso gamma
        scale_factor direction_iso target target_ps target_vec_ix
        target_discrete_ix rng false := by
  refine ⟨min_le_left _ _, ?_⟩
  unfold get_tracing_slice
  cases hR : get_rotmat_from_direc ops direction_iso gamma rng with
  | error e => rfl
  | ok R =>
      dsimp only
      rw [warp_slice_lcmi_irrelevant _ _ _ _ _ _ _ (tracingKsize scale_factor)
        (min_le_left _ _)]

/-- Claim C3 (witness): the dead-flag theorem applied at a concrete
downsampling call (`scale_factor = 1/2`, i.e. 2x zoom-out). -/
theorem get_tracing_slice_max_kernel_dead_witness :
    (0 : ℚ) < 1/2
    ∧ (tracingKsize (1/2) ≤ 1/2
      ∧ get_tracing_slice tops V155 (1, 1, 1) (2, 2, 2) 0 2 true (.val 0)
          (1/2) (1, 0, 0) none (0, 0, 0) none none gZero true
        = get_tracing_slice tops V155 (1, 1, 1) (2, 2, 2) 0 2 true (.val 0)
          (1/2) (1, 0, 0) none (0, 0, 0) none none gZero false) :=
  ⟨by norm_num,
   get_tracing_slice_max_kernel_dead tops V155 (1, 1, 1) (2, 2, 2) 0 2 true
     (.val 0) (1/2) (1, 0, 0) none (0, 0, 0) none none gZero (by norm_num)⟩


/-! ### Claim C10 -/

/-- Claim C10 (confirmed): when `no_x_flip` is set, `get_warped_slice` forces
the axis-permutation factor to the identity instead of sampling it, so the
composed transform equals the same composition with the swap factor omitted
entirely (and no swap draw is consumed): the flag disables axis swapping
altogether. -/
theorem get_warped_slice_no_x_flip_disables_swap (inp : Vol) (ps : ℕ × ℕ × ℕ)
    (ops : TrigOps) (aniso_factor : ℚ) (sample_aniso : Bool) (warp_amount : ℚ)
    (lock_z perspective : Bool) (target : Option Vol) (target_ps : ℕ × ℕ × ℕ)
    (globalRng rng : Rng) :
    get_warped_slice_M inp ps ops aniso_factor sample_aniso warp_amount
      lock_z true perspective target target_ps globalRng rng
    = get_warped_slice_M_noswap inp ps ops aniso_factor sample_aniso warp_amount
      lock_z perspective target target_ps globalRng rng := by
  unfold get_warped_slice_M get_warped_slice_M_noswap
  dsimp only
  simp only [eq_self_iff_true, if_true]
  split_ifs <;>
    first
      | rfl
      | simp only [chain_matrices, List.foldl, matMul_id_right]


/-! ### Claim C7 -/

theorem srcCornersQ_id_eval (p0 p1 p2 : ℕ) :
    srcCornersQ (p0, p1, p2) (inv4 idMat4) (isProj idMat4)
      = [((0:ℚ), (0:ℚ), (0:ℚ)), (0, 0, (p2:ℚ)-1), (0, (p1:ℚ)-1, 0),
         (0, (p1:ℚ)-1, (p2:ℚ)-1), ((p0:ℚ)-1, 0, 0), ((p0:ℚ)-1, 0, (p2:ℚ)-1),
         ((p0:ℚ)-1, (p1:ℚ)-1, 0), ((p0:ℚ)-1, (p1:ℚ)-1, (p2:ℚ)-1)] := by
  rw [inv4_id, isProj_id]
  norm_num [srcCornersQ, make_dest_corners, List.map, invMapPoint_id]

theorem warpOOB_V155_id : warpOOB V155 (3, 3, 3) idMat4 = false := by
  simp only [warpOOB, srcCornersQ_id_eval]
  norm_num [warpLo, warpHi, zminL, zmaxL, List.map, List.foldl, V155]

/-- Claim C7 (confirmed): when a target volume is supplied and the primary
bounding box is in bounds, an odd difference of full extents or of patch
sizes along any axis makes `warp_slice` fail with the plain `ValueError`
(`targets must be centered w.r.t. images`), an error distinct from
`WarpingOOBError`; the offset is never silently rounded. -/
theorem warp_slice_centering_parity_error (inp tv : Vol) (ps tps : ℕ × ℕ × ℕ)
    (M : Mat4) (tvix : Option (List (ℕ × ℕ × ℕ))) (tdix : Option (List ℕ))
    (lcmi : Bool) (ksize : ℚ)
    (h1 : warpOOB inp ps M = false)
    (h2 : (offParityOK inp tv && psParityOK ps tps) = false) :
    warp_slice inp ps M (some tv) tps tvix tdix lcmi ksize = .error .valueError
    ∧ WErr.valueError ≠ WErr.oob := by
  refine ⟨?_, by decide⟩
  unfold warp_slice
  rw [h1]
  dsimp only
  cases ho : offParityOK inp tv with
  | false => simp [ho]
  | true =>
      rw [ho] at h2
      simp only [Bool.true_and] at h2
      simp [ho, h2]

/-- Claim C7 (witness): a 5×5×5 primary with a 4×5×5 target (odd extent
difference on axis 0) under the identity transform. -/
theorem warp_slice_centering_parity_error_witness :
    (warpOOB V155 (3, 3, 3) idMat4 = false
      ∧ (offParityOK V155 V455 && psParityOK (3, 3, 3) (3, 3, 3)) = false)
    ∧ (warp_slice V155 (3, 3, 3) idMat4 (some V455) (3, 3, 3) none none false (1/2)
        = .error .valueError ∧ WErr.valueError ≠ WErr.oob) :=
  ⟨⟨warpOOB_V155_id, by decide⟩,
   warp_slice_centering_parity_error V155 V455 (3, 3, 3) (3, 3, 3) idMat4
     none none false (1/2) warpOOB_V155_id (by decide)⟩


/-! ### Claim C8 -/

/-- Claim C8 (confirmed): on a successful call with a target volume (and no
vector channels), `warp_slice` returns exactly the `primaryOut`/`targetOut`
pair; each target channel is resampled with `map_coordinates_nearest` iff its
index is in the supplied discrete set — or unconditionally when no set is
given — and with `map_coordinates_linear` otherwise; each primary channel is
trilinear except the final channel under the max-kernel opt-in with
`ksize > 0.5`. -/
theorem warp_slice_channel_kernel_selection (inp tv : Vol) (ps tps : ℕ × ℕ × ℕ)
    (M : Mat4) (tdix : Option (List ℕ)) (lcmi : Bool) (ksize : ℚ)
    (h1 : warpOOB inp ps M = false)
    (h2 : (offParityOK inp tv && psParityOK ps tps) = true)
    (h3 : targOOB inp tv ps tps M = false) :
    warp_slice inp ps M (some tv) tps none tdix lcmi ksize
      = .ok (primaryOut inp ps M lcmi ksize, some (targetOut inp tv ps tps M tdix))
    ∧ (∀ c, discrFlag tdix c = true ↔ tdix = none ∨ ∃ l, tdix = some l ∧ c ∈ l)
    ∧ (∀ c z x y, targetOut inp tv ps tps M tdix c z x y
        = if discrFlag tdix c then
            mapNearest (cutAt tv (targLo inp tv ps tps M) c)
              (targetCoordAt M ps tps z x y)
              ((((targLo inp tv ps tps M).1 + (centerOff inp tv).1 : ℤ) : ℚ),
               (((targLo inp tv ps tps M).2.1 + (centerOff inp tv).2.1 : ℤ) : ℚ),
               (((targLo inp tv ps tps M).2.2 + (centerOff inp tv).2.2 : ℤ) : ℚ))
          else
            mapLinear (cutAt tv (targLo inp tv ps tps M) c)
              (targetCoordAt M ps tps z x y)
              ((((targLo inp tv ps tps M).1 + (centerOff inp tv).1 : ℤ) : ℚ),
               (((targLo inp tv ps tps M).2.1 + (centerOff inp tv).2.1 : ℤ) : ℚ),
               (((targLo inp tv ps tps M).2.2 + (centerOff inp tv).2.2 : ℤ) : ℚ)))
    ∧ (∀ c z x y, primaryOut inp ps M lcmi ksize c z x y
        = if 1/2 < ksize ∧ lcmi = true ∧ c = inp.nf - 1 then
            mapMaxKernel (cutAt inp (warpLo (srcCornersQ ps (inv4 M) (isProj M))) c)
              (((warpHi (srcCornersQ ps (inv4 M) (isProj M))).1 + 1
                  - (warpLo (srcCornersQ ps (inv4 M) (isProj M))).1).toNat,
               ((warpHi (srcCornersQ ps (inv4 M) (isProj M))).2.1 + 1
                  - (warpLo (srcCornersQ ps (inv4 M) (isProj M))).2.1).toNat,
               ((warpHi (srcCornersQ ps (inv4 M) (isProj M))).2.2 + 1
                  - (warpLo (srcCornersQ ps (inv4 M) (isProj M))).2.2).toNat)
              (srcCoordAt (inv4 M) (isProj M) z x y)
              (((warpLo (srcCornersQ ps (inv4 M) (isProj M))).1 : ℚ),
               ((warpLo (srcCornersQ ps (inv4 M) (isProj M))).2.1 : ℚ),
               ((warpLo (srcCornersQ ps (inv4 M) (isProj M))).2.2 : ℚ)) ksize
          else
            mapLinear (cutAt inp (warpLo (srcCornersQ ps (inv4 M) (isProj M))) c)
              (srcCoordAt (inv4 M) (isProj M) z x y)
              (((warpLo (srcCornersQ ps (inv4 M) (isProj M))).1 : ℚ),
               ((warpLo (srcCornersQ ps (inv4 M) (isProj M))).2.1 : ℚ),
               ((warpLo (srcCornersQ ps (inv4 M) (isProj M))).2.2 : ℚ))) := by
  obtain ⟨ho, hp⟩ := Bool.and_eq_true_iff.mp h2
  refine ⟨?_, ?_, ?_, ?_⟩
  · unfold warp_slice
    rw [h1]
    dsimp only
    simp [ho, hp, h3]
  · intro c
    cases tdix <;> simp [discrFlag]
  · intro c z x y
    rfl
  · intro c z x y
    rfl

theorem warpOOB_V155_tr : warpOOB V155 (1, 1, 1) (translate (-1) (-1) (-1)) = false := by
  have hc : srcCornersQ (1, 1, 1) (inv4 (translate (-1) (-1) (-1)))
      (isProj (translate (-1) (-1) (-1)))
      = [((1:ℚ), (1:ℚ), (1:ℚ)), (1, 1, 1), (1, 1, 1), (1, 1, 1),
         (1, 1, 1), (1, 1, 1), (1, 1, 1), (1, 1, 1)] := by
    rw [inv4_translate, isProj_translate]
    norm_num [srcCornersQ, make_dest_corners, invMapPoint, translate, List.map,
      mk4_e00, mk4_e01, mk4_e02, mk4_e03, mk4_e10, mk4_e11, mk4_e12, mk4_e13,
      mk4_e20, mk4_e21, mk4_e22, mk4_e23]
  simp only [warpOOB, hc]
  norm_num [warpLo, warpHi, zminL, zmaxL, List.map, List.foldl, V155]

theorem targOOB_V255_tr :
    targOOB V155 V255 (1, 1, 1) (1, 1, 1) (translate (-1) (-1) (-1)) = false := by
  have hc : targetCoordList (translate (-1) (-1) (-1)) (1, 1, 1) (1, 1, 1)
      = [((1:ℚ), (1:ℚ), (1:ℚ))] := by
    simp only [targetCoordList, targetCoordAt, psOff, inv4_translate,
      isProj_translate, List.range_succ, List.range_zero, List.flatMap_cons,
      List.flatMap_nil, List.map_cons, List.map_nil, List.nil_append,
      List.append_nil]
    norm_num [invMapPoint, translate,
      mk4_e00, mk4_e01, mk4_e02, mk4_e03, mk4_e10, mk4_e11, mk4_e12, mk4_e13,
      mk4_e20, mk4_e21, mk4_e22, mk4_e23]
  simp only [targOOB, targLo, targHi, hc]
  norm_num [qminL, qmaxL, List.map, List.foldl, centerOff, V155, V255]

/-- Claim C8 (witness): the kernel-selection theorem applied to a concrete
2-channel target with discrete set `[0]` under a unit translation. -/
theorem warp_slice_channel_kernel_selection_witness :
    (warpOOB V155 (1, 1, 1) (translate (-1) (-1) (-1)) = false
      ∧ (offParityOK V155 V255 && psParityOK (1, 1, 1) (1, 1, 1)) = true
      ∧ targOOB V155 V255 (1, 1, 1) (1, 1, 1) (translate (-1) (-1) (-1)) = false)
    ∧ warp_slice V155 (1, 1, 1) (translate (-1) (-1) (-1)) (some V255) (1, 1, 1)
        none (some [0]) false (1/2)
      = .ok (primaryOut V155 (1, 1, 1) (translate (-1) (-1) (-1)) false (1/2),
          some (targetOut V155 V255 (1, 1, 1) (1, 1, 1)
            (translate (-1) (-1) (-1)) (some [0]))) :=
  ⟨⟨warpOOB_V155_tr, by decide, targOOB_V255_tr⟩,
   (warp_slice_channel_kernel_selection V155 V255 (1, 1, 1) (1, 1, 1)
     (translate (-1) (-1) (-1)) (some [0]) false (1/2)
     warpOOB_V155_tr (by decide) targOOB_V255_tr).1⟩


/-! ### Claim C6 -/

/-- Claim C6 (confirmed): when vector channel triples are named, a successful
`warp_slice` call re-projects the interpolated target exactly by
`applyVecIx` — which multiplies each 3-vector by the linear 3x3 block
`M[:3,:3]` of the forward transform only, with no translation entry `M i 3`
involved (second conjunct, for distinct channels) — and the call fails with
the assertion error whenever the bottom row's first three entries of `M` are
not numerically zero (`np.allclose` with atol 1e-8). -/
theorem warp_slice_vector_reprojection (inp tv : Vol) (ps tps : ℕ × ℕ × ℕ)
    (L : List (ℕ × ℕ × ℕ)) (tdix : Option (List ℕ)) (lcmi : Bool) (ksize : ℚ)
    (M : Mat4)
    (h1 : warpOOB inp ps M = false)
    (h2 : (offParityOK inp tv && psParityOK ps tps) = true)
    (h3 : targOOB inp tv ps tps M = false) :
    (allClose3Zero M = true →
      warp_slice inp ps M (some tv) tps (some L) tdix lcmi ksize
        = .ok (primaryOut inp ps M lcmi ksize,
            some (applyVecIx M (targetOut inp tv ps tps M tdix) L)))
    ∧ (∀ (t : OutArr) (a b c z x y : ℕ), ¬a = b → ¬a = c → ¬b = c →
        (applyVecIx M t [(a, b, c)] a z x y
           = M 0 0 * t a z x y + M 0 1 * t b z x y + M 0 2 * t c z x y)
        ∧ (applyVecIx M t [(a, b, c)] b z x y
           = M 1 0 * t a z x y + M 1 1 * t b z x y + M 1 2 * t c z x y)
        ∧ (applyVecIx M t [(a, b, c)] c z x y
           = M 2 0 * t a z x y + M 2 1 * t b z x y + M 2 2 * t c z x y)
        ∧ ∀ ch, ¬ch = a → ¬ch = b → ¬ch = c →
            applyVecIx M t [(a, b, c)] ch z x y = t ch z x y)
    ∧ (allClose3Zero M = false →
        warp_slice inp ps M (some tv) tps (some L) tdix lcmi ksize
          = .error .assertError) := by
  obtain ⟨ho, hp⟩ := Bool.and_eq_true_iff.mp h2
  refine ⟨?_, ?_, ?_⟩
  · intro hacl
    unfold warp_slice
    rw [h1]
    dsimp only
    simp [ho, hp, h3, hacl]
  · intro t a b c z x y hab hac hbc
    have hba : ¬b = a := fun h => hab h.symm
    have hca : ¬c = a := fun h => hac h.symm
    have hcb : ¬c = b := fun h => hbc h.symm
    refine ⟨?_, ?_, ?_, ?_⟩
    · simp [applyVecIx]
    · simp [applyVecIx, hba]
    · simp [applyVecIx, hca, hcb]
    · intro ch hcha hchb hchc
      simp [applyVecIx, hcha, hchb, hchc]
  · intro hacl
    unfold warp_slice
    rw [h1]
    dsimp only
    simp [ho, hp, h3, hacl]


theorem inv4_M90 : inv4 M90
    = mk4 1 0    0 2
          0 0    1 2
          0 (-1) 0 2
          0 0    0 1 := by
  funext i j
  fin_cases i <;> fin_cases j <;>
    norm_num [inv4, adj4, det4, minor4, det3f, M90,
      mk4_e00, mk4_e01, mk4_e02, mk4_e03, mk4_e10, mk4_e11, mk4_e12, mk4_e13,
      mk4_e20, mk4_e21, mk4_e22, mk4_e23, mk4_e30, mk4_e31, mk4_e32, mk4_e33,
      skip4_00, skip4_01, skip4_02, skip4_10, skip4_11, skip4_12,
      skip4_20, skip4_21, skip4_22, skip4_30, skip4_31, skip4_32]

theorem isProj_M90 : isProj M90 = false := by
  simp [isProj, M90, mk4_e30, mk4_e31, mk4_e32]

theorem allClose3Zero_M90 : allClose3Zero M90 = true := by
  norm_num [allClose3Zero, M90, mk4_e30, mk4_e31, mk4_e32]

theorem warpOOB_M90 : warpOOB V355 (1, 1, 1) M90 = false := by
  have hc : srcCornersQ (1, 1, 1) (inv4 M90) (isProj M90)
      = [((2:ℚ), (2:ℚ), (2:ℚ)), (2, 2, 2), (2, 2, 2), (2, 2, 2),
         (2, 2, 2), (2, 2, 2), (2, 2, 2), (2, 2, 2)] := by
    rw [inv4_M90, isProj_M90]
    norm_num [srcCornersQ, make_dest_corners, invMapPoint, List.map,
      mk4_e00, mk4_e01, mk4_e02, mk4_e03, mk4_e10, mk4_e11, mk4_e12, mk4_e13,
      mk4_e20, mk4_e21, mk4_e22, mk4_e23]
  simp only [warpOOB, hc]
  norm_num [warpLo, warpHi, zminL, zmaxL, List.map, List.foldl, V355]

theorem targOOB_M90 : targOOB V355 V355 (1, 1, 1) (1, 1, 1) M90 = false := by
  have hc : targetCoordList M90 (1, 1, 1) (1, 1, 1) = [((2:ℚ), (2:ℚ), (2:ℚ))] := by
    simp only [targetCoordList, targetCoordAt, psOff, inv4_M90, isProj_M90,
      List.range_succ, List.range_zero, List.flatMap_cons, List.flatMap_nil,
      List.map_cons, List.map_nil, List.nil_append, List.append_nil]
    norm_num [invMapPoint,
      mk4_e00, mk4_e01, mk4_e02, mk4_e03, mk4_e10, mk4_e11, mk4_e12, mk4_e13,
      mk4_e20, mk4_e21, mk4_e22, mk4_e23]
  simp only [targOOB, targLo, targHi, hc]
  norm_num [qminL, qmaxL, List.map, List.foldl, centerOff, V355]

/-- Claim C6 (witness): the re-projection theorem applied to a constant
`(0, 0, 1)` vector field under the pure 90-degree rotation `M90`. -/
theorem warp_slice_vector_reprojection_witness :
    (warpOOB V355 (1, 1, 1) M90 = false
      ∧ (offParityOK V355 V355 && psParityOK (1, 1, 1) (1, 1, 1)) = true
      ∧ targOOB V355 V355 (1, 1, 1) (1, 1, 1) M90 = false)
    ∧ ((allClose3Zero M90 = true →
        warp_slice V355 (1, 1, 1) M90 (some V355) (1, 1, 1) (some [(0, 1, 2)])
            none false (1/2)
          = .ok (primaryOut V355 (1, 1, 1) M90 false (1/2),
              some (applyVecIx M90
                (targetOut V355 V355 (1, 1, 1) (1, 1, 1) M90 none) [(0, 1, 2)])))
      ∧ (∀ (t : OutArr) (a b c z x y : ℕ), ¬a = b → ¬a = c → ¬b = c →
          (applyVecIx M90 t [(a, b, c)] a z x y
             = M90 0 0 * t a z x y + M90 0 1 * t b z x y + M90 0 2 * t c z x y)
          ∧ (applyVecIx M90 t [(a, b, c)] b z x y
             = M90 1 0 * t a z x y + M90 1 1 * t b z x y + M90 1 2 * t c z x y)
          ∧ (applyVecIx M90 t [(a, b, c)] c z x y
             = M90 2 0 * t a z x y + M90 2 1 * t b z x y + M90 2 2 * t c z x y)
          ∧ ∀ ch, ¬ch = a → ¬ch = b → ¬ch = c →
              applyVecIx M90 t [(a, b, c)] ch z x y = t ch z x y)
      ∧ (allClose3Zero M90 = false →
          warp_slice V355 (1, 1, 1) M90 (some V355) (1, 1, 1) (some [(0, 1, 2)])
              none false (1/2)
            = .error .assertError)) :=
  ⟨⟨warpOOB_M90, by decide, targOOB_M90⟩,
   warp_slice_vector_reprojection V355 V355 (1, 1, 1) (1, 1, 1) [(0, 1, 2)]
     none false (1/2) M90 warpOOB_M90 (by decide) targOOB_M90⟩


/-! ### Claim C1 -/

theorem floor_natCast_sub_one (n : ℕ) : ⌊(n:ℚ) - 1⌋ = (n:ℤ) - 1 := by
  rw [show ((n:ℚ) - 1) = (((n:ℤ) - 1 : ℤ) : ℚ) by push_cast; ring, Int.floor_intCast]

theorem ceil_natCast_sub_one_add_one (n : ℕ) : ⌈(n:ℚ) - 1 + 1⌉ = (n:ℤ) := by
  rw [sub_add_cancel, Int.ceil_natCast]

theorem warpLo_id_eval (p0 p1 p2 : ℕ) (h0 : 0 < p0) (h1 : 0 < p1) (h2 : 0 < p2) :
    warpLo (srcCornersQ (p0, p1, p2) (inv4 idMat4) (isProj idMat4)) = (0, 0, 0) := by
  rw [srcCornersQ_id_eval]
  unfold warpLo
  simp only [List.map, Int.floor_zero, floor_natCast_sub_one, Prod.mk.injEq]
  refine ⟨?_, ?_, ?_⟩ <;>
    · refine zminL_eq (by simp) ?_
      intro x hx
      simp at hx
      rcases hx with h | h <;> omega

theorem warpHi_id_eval (p0 p1 p2 : ℕ) (h0 : 0 < p0) (h1 : 0 < p1) (h2 : 0 < p2) :
    warpHi (srcCornersQ (p0, p1, p2) (inv4 idMat4) (isProj idMat4))
      = ((p0 : ℤ), (p1 : ℤ), (p2 : ℤ)) := by
  rw [srcCornersQ_id_eval]
  unfold warpHi
  simp only [List.map, zero_add, Int.ceil_one, ceil_natCast_sub_one_add_one,
    Prod.mk.injEq]
  refine ⟨?_, ?_, ?_⟩ <;>
    · refine zmaxL_eq (by simp) ?_
      intro x hx
      simp at hx
      rcases hx with h | h <;> omega

theorem warpOOB_id_eval (nf s0 s1 s2 : ℕ) (data : ℕ → ℕ → ℕ → ℕ → ℚ)
    (p0 p1 p2 : ℕ) (h0 : 0 < p0) (h1 : 0 < p1) (h2 : 0 < p2)
    (hs0 : p0 < s0) (hs1 : p1 < s1) (hs2 : p2 < s2) :
    warpOOB ⟨nf, s0, s1, s2, data⟩ (p0, p1, p2) idMat4 = false := by
  unfold warpOOB
  dsimp only
  rw [warpLo_id_eval p0 p1 p2 h0 h1 h2, warpHi_id_eval p0 p1 p2 h0 h1 h2]
  simp only [Bool.or_eq_false_iff, decide_eq_false_iff_not]
  refine ⟨⟨⟨⟨⟨?_, ?_⟩, ?_⟩, ?_⟩, ?_⟩, ?_⟩ <;> omega


theorem zero_ediv_two : Int.ediv 0 2 = 0 := rfl

theorem targetCoordAt_id (p0 p1 p2 : ℕ) (z x y : ℕ) :
    targetCoordAt idMat4 (p0, p1, p2) (p0, p1, p2) z x y
      = ((z : ℚ), (x : ℚ), (y : ℚ)) := by
  simp [targetCoordAt, psOff, inv4_id, isProj_id, invMapPoint_id, zero_ediv_two]

theorem targetCoordList_id_mem (p0 p1 p2 : ℕ) {q : ℚ × ℚ × ℚ}
    (hq : q ∈ targetCoordList idMat4 (p0, p1, p2) (p0, p1, p2)) :
    ∃ z x y : ℕ, z < p0 ∧ x < p1 ∧ y < p2 ∧ q = ((z : ℚ), (x : ℚ), (y : ℚ)) := by
  simp only [targetCoordList, targetCoordAt_id] at hq
  obtain ⟨z, hz, hq⟩ := List.mem_flatMap.mp hq
  obtain ⟨x, hx, hq⟩ := List.mem_flatMap.mp hq
  obtain ⟨y, hy, hq⟩ := List.mem_map.mp hq
  exact ⟨z, x, y, List.mem_range.mp hz, List.mem_range.mp hx,
    List.mem_range.mp hy, hq.symm⟩

theorem targetCoordList_id_has (p0 p1 p2 : ℕ) (z x y : ℕ) (hz : z < p0)
    (hx : x < p1) (hy : y < p2) :
    ((z : ℚ), (x : ℚ), (y : ℚ)) ∈ targetCoordList idMat4 (p0, p1, p2) (p0, p1, p2) := by
  simp only [targetCoordList, targetCoordAt_id]
  exact List.mem_flatMap.mpr ⟨z, List.mem_range.mpr hz,
    List.mem_flatMap.mpr ⟨x, List.mem_range.mpr hx,
      List.mem_map.mpr ⟨y, List.mem_range.mpr hy, rfl⟩⟩⟩

theorem targLo_id_eval (nf s0 s1 s2 : ℕ) (data : ℕ → ℕ → ℕ → ℕ → ℚ)
    (p0 p1 p2 : ℕ) (h0 : 0 < p0) (h1 : 0 < p1) (h2 : 0 < p2) :
    targLo ⟨nf, s0, s1, s2, data⟩ ⟨nf, s0, s1, s2, data⟩ (p0, p1, p2) (p0, p1, p2)
      idMat4 = (0, 0, 0) := by
  unfold targLo
  have hco : centerOff ⟨nf, s0, s1, s2, data⟩ ⟨nf, s0, s1, s2, data⟩ = (0, 0, 0) := by
    simp [centerOff, zero_ediv_two]
  rw [hco]
  dsimp only
  have hm1 : qminL ((targetCoordList idMat4 (p0, p1, p2) (p0, p1, p2)).map
      fun c => c.1) = 0 := by
    refine qminL_eq (List.mem_map.mpr
      ⟨((0:ℚ), (0:ℚ), (0:ℚ)),
        by simpa using targetCoordList_id_has p0 p1 p2 0 0 0 h0 h1 h2, rfl⟩) ?_
    intro q hq
    obtain ⟨t, ht, rfl⟩ := List.mem_map.mp hq
    obtain ⟨z, x, y, _, _, _, rfl⟩ := targetCoordList_id_mem p0 p1 p2 ht
    exact Nat.cast_nonneg z
  have hm2 : qminL ((targetCoordList idMat4 (p0, p1, p2) (p0, p1, p2)).map
      fun c => c.2.1) = 0 := by
    refine qminL_eq (List.mem_map.mpr
      ⟨((0:ℚ), (0:ℚ), (0:ℚ)),
        by simpa using targetCoordList_id_has p0 p1 p2 0 0 0 h0 h1 h2, rfl⟩) ?_
    intro q hq
    obtain ⟨t, ht, rfl⟩ := List.mem_map.mp hq
    obtain ⟨z, x, y, _, _, _, rfl⟩ := targetCoordList_id_mem p0 p1 p2 ht
    exact Nat.cast_nonneg x
  have hm3 : qminL ((targetCoordList idMat4 (p0, p1, p2) (p0, p1, p2)).map
      fun c => c.2.2) = 0 := by
    refine qminL_eq (List.mem_map.mpr
      ⟨((0:ℚ), (0:ℚ), (0:ℚ)),
        by simpa using targetCoordList_id_has p0 p1 p2 0 0 0 h0 h1 h2, rfl⟩) ?_
    intro q hq
    obtain ⟨t, ht, rfl⟩ := List.mem_map.mp hq
    obtain ⟨z, x, y, _, _, _, rfl⟩ := targetCoordList_id_mem p0 p1 p2 ht
    exact Nat.cast_nonneg y
  rw [hm1, hm2, hm3]
  norm_num

theorem targHi_id_eval (nf s0 s1 s2 : ℕ) (data : ℕ → ℕ → ℕ → ℕ → ℚ)
    (p0 p1 p2 : ℕ) (h0 : 0 < p0) (h1 : 0 < p1) (h2 : 0 < p2) :
    targHi ⟨nf, s0, s1, s2, data⟩ ⟨nf, s0, s1, s2, data⟩ (p0, p1, p2) (p0, p1, p2)
      idMat4 = ((p0 : ℤ), (p1 : ℤ), (p2 : ℤ)) := by
  unfold targHi
  have hco : centerOff ⟨nf, s0, s1, s2, data⟩ ⟨nf, s0, s1, s2, data⟩ = (0, 0, 0) := by
    simp [centerOff, zero_ediv_two]
  rw [hco]
  dsimp only
  have cast1 : ∀ n : ℕ, 0 < n → (((n - 1 : ℕ) : ℚ)) = (n : ℚ) - 1 := by
    intro n hn
    push_cast [Nat.cast_sub hn]
    ring
  have bnd : ∀ (a n : ℕ), a < n → (a : ℚ) ≤ (n : ℚ) - 1 := by
    intro a n han
    have : (a : ℚ) + 1 ≤ (n : ℚ) := by exact_mod_cast Nat.succ_le_of_lt han
    linarith
  have hm1 : qmaxL ((targetCoordList idMat4 (p0, p1, p2) (p0, p1, p2)).map
      fun c => c.1) = (p0 : ℚ) - 1 := by
    refine qmaxL_eq (List.mem_map.mpr
      ⟨(((p0 - 1 : ℕ) : ℚ), (0:ℚ), (0:ℚ)), ?_, by rw [cast1 p0 h0]⟩) ?_
    · exact targetCoordList_id_has p0 p1 p2 (p0 - 1) 0 0 (by omega) h1 h2
    · intro q hq
      obtain ⟨t, ht, rfl⟩ := List.mem_map.mp hq
      obtain ⟨z, x, y, hz, _, _, rfl⟩ := targetCoordList_id_mem p0 p1 p2 ht
      exact bnd z p0 hz
  have hm2 : qmaxL ((targetCoordList idMat4 (p0, p1, p2) (p0, p1, p2)).map
      fun c => c.2.1) = (p1 : ℚ) - 1 := by
    refine qmaxL_eq (List.mem_map.mpr
      ⟨((0:ℚ), ((p1 - 1 : ℕ) : ℚ), (0:ℚ)), ?_, by rw [cast1 p1 h1]⟩) ?_
    · exact targetCoordList_id_has p0 p1 p2 0 (p1 - 1) 0 h0 (by omega) h2
    · intro q hq
      obtain ⟨t, ht, rfl⟩ := List.mem_map.mp hq
      obtain ⟨z, x, y, _, hx, _, rfl⟩ := targetCoordList_id_mem p0 p1 p2 ht
      exact bnd x p1 hx
  have hm3 : qmaxL ((targetCoordList idMat4 (p0, p1, p2) (p0, p1, p2)).map
      fun c => c.2.2) = (p2 : ℚ) - 1 := by
    refine qmaxL_eq (List.mem_map.mpr
      ⟨((0:ℚ), (0:ℚ), ((p2 - 1 : ℕ) : ℚ)), ?_, by rw [cast1 p2 h2]⟩) ?_
    · exact targetCoordList_id_has p0 p1 p2 0 0 (p2 - 1) h0 h1 (by omega)
    · intro q hq
      obtain ⟨t, ht, rfl⟩ := List.mem_map.mp hq
      obtain ⟨z, x, y, _, _, hy, rfl⟩ := targetCoordList_id_mem p0 p1 p2 ht
      exact bnd y p2 hy
  rw [hm1, hm2, hm3]
  simp only [Int.cast_zero, sub_zero, Prod.mk.injEq]
  exact ⟨ceil_natCast_sub_one_add_one p0, ceil_natCast_sub_one_add_one p1,
    ceil_natCast_sub_one_add_one p2⟩

theorem targOOB_id_eval (nf s0 s1 s2 : ℕ) (data : ℕ → ℕ → ℕ → ℕ → ℚ)
    (p0 p1 p2 : ℕ) (h0 : 0 < p0) (h1 : 0 < p1) (h2 : 0 < p2)
    (hs0 : p0 < s0) (hs1 : p1 < s1) (hs2 : p2 < s2) :
    targOOB ⟨nf, s0, s1, s2, data⟩ ⟨nf, s0, s1, s2, data⟩ (p0, p1, p2) (p0, p1, p2)
      idMat4 = false := by
  unfold targOOB
  dsimp only
  rw [targLo_id_eval nf s0 s1 s2 data p0 p1 p2 h0 h1 h2,
    targHi_id_eval nf s0 s1 s2 data p0 p1 p2 h0 h1 h2]
  simp only [Bool.or_eq_false_iff, decide_eq_false_iff_not]
  refine ⟨⟨⟨⟨⟨?_, ?_⟩, ?_⟩, ?_⟩, ?_⟩, ?_⟩ <;> omega


theorem mapLinear_zeroLo (src : ℤ → ℤ → ℤ → ℚ) (z x y : ℕ) :
    mapLinear src ((z : ℚ), (x : ℚ), (y : ℚ)) (0, 0, 0) = src (z : ℤ) (x : ℤ) (y : ℤ) := by
  have h := mapLinear_intCoord src (z : ℤ) (x : ℤ) (y : ℤ) 0 0 0
  simpa using h

theorem mapNearest_zeroLo (src : ℤ → ℤ → ℤ → ℚ) (z x y : ℕ) :
    mapNearest src ((z : ℚ), (x : ℚ), (y : ℚ)) (0, 0, 0) = src (z : ℤ) (x : ℤ) (y : ℤ) := by
  have h := mapNearest_intCoord src (z : ℤ) (x : ℤ) (y : ℤ) 0 0 0
  simpa using h

/-- Claim C1 (counterexample): with `M` the identity and the patch shape
EQUAL to the source's spatial shape, `warp_slice` does not return the
source's content — it raises `WarpingOOBError`, because the interpolation
margin makes `hi = ceil((shape - 1) + 1) = shape`, tripping `hi >= shape`. -/
theorem warp_slice_identity_full_patch_oob :
    isOOBErr (warp_slice V133 (3, 3, 3) idMat4 none (0, 0, 0) none none false (1/2))
      = true := by
  have hw : warpOOB V133 (3, 3, 3) idMat4 = true := by
    unfold warpOOB
    dsimp only
    rw [warpLo_id_eval 3 3 3 (by norm_num) (by norm_num) (by norm_num),
      warpHi_id_eval 3 3 3 (by norm_num) (by norm_num) (by norm_num)]
    norm_num [V133]
  simp [warp_slice, hw, isOOBErr]

/-- Claim C1 (amended): with `M` the identity and the patch shape strictly
smaller than the source shape on every axis (patch = source shape raises
out-of-bounds, see the counterexample), `warp_slice` succeeds and both the
linear-interpolation primary output and the nearest-interpolation target
output (default all-discrete) equal the source's content on the leading
sub-block — all mapped coordinates are exact integers. -/
theorem warp_slice_identity_subpatch_exact (nf s0 s1 s2 : ℕ)
    (data : ℕ → ℕ → ℕ → ℕ → ℚ) (p0 p1 p2 : ℕ)
    (h0 : 0 < p0) (h1 : 0 < p1) (h2 : 0 < p2)
    (hs0 : p0 < s0) (hs1 : p1 < s1) (hs2 : p2 < s2) :
    ∃ F T : OutArr,
      warp_slice ⟨nf, s0, s1, s2, data⟩ (p0, p1, p2) idMat4
          (some ⟨nf, s0, s1, s2, data⟩) (p0, p1, p2) none none false (1/2)
        = .ok (F, some T)
      ∧ ∀ c z x y, z < p0 → x < p1 → y < p2 →
          F c z x y = data c z x y ∧ T c z x y = data c z x y := by
  refine ⟨primaryOut ⟨nf, s0, s1, s2, data⟩ (p0, p1, p2) idMat4 false (1/2),
    targetOut ⟨nf, s0, s1, s2, data⟩ ⟨nf, s0, s1, s2, data⟩ (p0, p1, p2)
      (p0, p1, p2) idMat4 none, ?_, ?_⟩
  · unfold warp_slice
    rw [warpOOB_id_eval nf s0 s1 s2 data p0 p1 p2 h0 h1 h2 hs0 hs1 hs2]
    dsimp only
    have ho : offParityOK ⟨nf, s0, s1, s2, data⟩ ⟨nf, s0, s1, s2, data⟩ = true := by
      simp [offParityOK]
    have hp : psParityOK (p0, p1, p2) (p0, p1, p2) = true := by
      simp [psParityOK]
    simp [ho, hp, targOOB_id_eval nf s0 s1 s2 data p0 p1 p2 h0 h1 h2 hs0 hs1 hs2]
  · intro c z x y hz hx hy
    constructor
    · unfold primaryOut
      dsimp only
      rw [if_neg (fun hcc => absurd hcc.1 (by norm_num))]
      rw [warpLo_id_eval p0 p1 p2 h0 h1 h2]
      unfold srcCoordAt
      rw [inv4_id, isProj_id, invMapPoint_id]
      dsimp only
      simp only [Int.cast_zero]
      rw [mapLinear_zeroLo]
      simp [cutAt]
    · unfold targetOut
      dsimp only
      rw [targLo_id_eval nf s0 s1 s2 data p0 p1 p2 h0 h1 h2]
      have hco : centerOff ⟨nf, s0, s1, s2, data⟩ ⟨nf, s0, s1, s2, data⟩
          = (0, 0, 0) := by
        simp [centerOff, zero_ediv_two]
      rw [hco, targetCoordAt_id]
      simp only [discrFlag]
      simp only [add_zero, Int.cast_zero]
      rw [if_pos trivial, mapNearest_zeroLo]
      simp [cutAt]

/-- Claim C1 (witness): the amended theorem applied to a concrete non-zero
1-channel `3×3×3` volume with patch shape `(2, 2, 2)`. -/
theorem warp_slice_identity_subpatch_exact_witness :
    ((0 < 2 ∧ 0 < 2 ∧ 0 < 2) ∧ (2 < 3 ∧ 2 < 3 ∧ 2 < 3))
    ∧ ∃ F T : OutArr,
        warp_slice ⟨1, 3, 3, 3, fun c z x y => (c : ℚ) + 2 * z + 3 * x + 5 * y⟩
            (2, 2, 2) idMat4
            (some ⟨1, 3, 3, 3, fun c z x y => (c : ℚ) + 2 * z + 3 * x + 5 * y⟩)
            (2, 2, 2) none none false (1/2)
          = .ok (F, some T)
        ∧ ∀ c z x y, z < 2 → x < 2 → y < 2 →
            F c z x y = (fun c z x y => (c : ℚ) + 2 * z + 3 * x + 5 * y) c z x y
            ∧ T c z x y = (fun c z x y => (c : ℚ) + 2 * z + 3 * x + 5 * y) c z x y :=
  ⟨⟨⟨by norm_num, by norm_num, by norm_num⟩, ⟨by norm_num, by norm_num, by norm_num⟩⟩,
   warp_slice_identity_subpatch_exact 1 3 3 3
     (fun c z x y => (c : ℚ) + 2 * z + 3 * x + 5 * y) 2 2 2
     (by norm_num) (by norm_num) (by norm_num)
     (by norm_num) (by norm_num) (by norm_num)⟩

end E3
